import Mathlib

/-!
Verification development for the conversational retrieval orchestration
engine of the rag-agent repository: the memory subsystem (storage
discipline and ranked retrieval), the RAG retrieval engine (threshold
filtering with fallback), the retry wrapper around the LLM ports, the
garbage/intent classifiers, and the chat orchestrator.

The TypeScript sources are shallowly embedded: results of awaited
external calls (embedding port, completion port, database queries) are
supplied as explicit inputs, machine numbers are modelled as exact
rationals, and every stateful operation is explicit state passing.
Side effects (rows written, completion calls, retrieval calls) are
collected in explicit traces.
-/

/-- Discriminator of the two memory kinds stored in the user_memories
table, from memoryService.ts (type MemoryType). -/
inductive MemoryType where
  | fact
  | chat
deriving DecidableEq, Repr

/-- Intent labels produced by the LLM fact extractor in chatService.ts. -/
inductive FactIntent where
  | introducing
  | updating
  | asking
  | neutral
deriving DecidableEq, Repr

/-- The structured fact candidate returned by extractDynamicKeyFact in
chatService.ts. -/
structure KeyFact where
  key : String
  value : String
  intent : FactIntent
deriving DecidableEq, Repr

/-- High-level intent categories from chatService.ts (type HighLevelIntent). -/
inductive HighLevelIntent where
  | PURE_MEMORY_QUERY
  | PURE_POLICY_QUERY
  | MERGED_MEMORY_POLICY_QUERY
  | UNKNOWN
deriving DecidableEq, Repr

/- ------------------------------------------------------------------ -/
/- RAG retrieval engine (ragService: getRagContextForQuery)            -/
/- ------------------------------------------------------------------ -/

/-- A chunk as stored in the chunks table. The field dist models the
value of the SQL expression embedding <-> query for the query embedding
under consideration: the vector distance is a fixed rational per chunk
once the query embedding is fixed. -/
structure StoredChunk where
  id : Nat
  document_id : Nat
  chunk_index : Nat
  content : String
  dist : ℚ
deriving DecidableEq, Repr

/-- ChunkRow, the row shape returned by the SQL layer to the RAG service
(interface ChunkRow in ragService): distance is optional in the
TypeScript type; rows produced by queryChunksByEmbedding always carry it. -/
structure ChunkRow where
  id : Nat
  document_id : Nat
  chunk_index : Nat
  content : String
  distance : Option ℚ
deriving DecidableEq, Repr

/-- Meta block of a RagRetrievalResult. -/
structure RagMeta where
  topK : Nat
  distanceThreshold : ℚ
  chunksReturned : Nat
deriving DecidableEq, Repr

/-- RagRetrievalResult from ragService (queryEmbedding omitted: it is
echoed back verbatim and carries no information in the embedding). -/
structure RagRetrievalResult where
  rawChunks : List ChunkRow
  filteredChunks : List ChunkRow
  finalChunks : List ChunkRow
  meta : RagMeta
deriving DecidableEq, Repr

/-- queryChunksByEmbedding: SELECT 5 columns with
embedding <-> query AS distance FROM chunks ORDER BY distance ASC
LIMIT topK. The chunks table is the explicit input; ordering by
ascending distance and truncation model ORDER BY / LIMIT. -/
def queryChunksByEmbedding (table : List StoredChunk) (topK : Nat) : List ChunkRow :=
  ((List.insertionSort (fun a b : StoredChunk => a.dist ≤ b.dist) table).take topK).map
    (fun c => ⟨c.id, c.document_id, c.chunk_index, c.content, some c.dist⟩)

/-- getRagContextForQuery from ragService: fetch topK nearest chunks,
filter by distance <= threshold (the filter also requires the distance
field to be present, mirroring the typeof check), fall back to the raw
set when the filter removes everything. -/
def getRagContextForQuery (table : List StoredChunk) (topK : Nat)
    (distanceThreshold : ℚ) : RagRetrievalResult :=
  let rawChunks := queryChunksByEmbedding table topK
  let filteredChunks := rawChunks.filter
    (fun chunk =>
      match chunk.distance with
      | some d => decide (d ≤ distanceThreshold)
      | none => false)
  let finalChunks := if filteredChunks.length > 0 then filteredChunks else rawChunks
  { rawChunks := rawChunks
    filteredChunks := filteredChunks
    finalChunks := finalChunks
    meta :=
      { topK := topK
        distanceThreshold := distanceThreshold
        chunksReturned := finalChunks.length } }

/-- buildContextFromChunks from ragService: join chunk contents with the
fixed separator, empty list yields the empty string. -/
def buildContextFromChunks (chunks : List ChunkRow) : String :=
  if chunks.length = 0 then ""
  else String.intercalate "\n---\n" (chunks.map (fun c => c.content))

/- ------------------------------------------------------------------ -/
/- Intent detection (chatService: detectHighLevelIntent)               -/
/- ------------------------------------------------------------------ -/

/-- detectHighLevelIntent from chatService, translated clause by clause:
asking facts take priority, then the no-fact personal-question path,
then the policy-keyword path, else UNKNOWN. The question argument is
kept for signature parity with the source; it is not inspected. -/
def detectHighLevelIntent (_question : String) (keyFact : Option KeyFact)
    (hasPolicyKeyword : Bool) (isDirectPersonalQuestion : Bool) : HighLevelIntent :=
  match keyFact with
  | some kf =>
    if kf.intent = FactIntent.asking then
      if hasPolicyKeyword then HighLevelIntent.MERGED_MEMORY_POLICY_QUERY
      else HighLevelIntent.PURE_MEMORY_QUERY
    else if hasPolicyKeyword then HighLevelIntent.PURE_POLICY_QUERY
    else HighLevelIntent.UNKNOWN
  | none =>
    if isDirectPersonalQuestion then HighLevelIntent.PURE_MEMORY_QUERY
    else if hasPolicyKeyword then HighLevelIntent.PURE_POLICY_QUERY
    else HighLevelIntent.UNKNOWN

/-- The intent-resolution priority order exactly as the specification
states it, written as one nested conditional over the four rules. -/
def specIntentResolution (keyFact : Option KeyFact) (hasPolicyKeyword : Bool)
    (isDirectPersonalQuestion : Bool) : HighLevelIntent :=
  if (match keyFact with
      | some kf => kf.intent == FactIntent.asking
      | none => false) then
    if hasPolicyKeyword then HighLevelIntent.MERGED_MEMORY_POLICY_QUERY
    else HighLevelIntent.PURE_MEMORY_QUERY
  else if keyFact = none ∧ isDirectPersonalQuestion = true then
    HighLevelIntent.PURE_MEMORY_QUERY
  else if hasPolicyKeyword then HighLevelIntent.PURE_POLICY_QUERY
  else HighLevelIntent.UNKNOWN

/-- C6: detectHighLevelIntent applies exactly the claimed priority order:
an asking fact candidate yields MERGED_MEMORY_POLICY_QUERY with a policy
keyword and PURE_MEMORY_QUERY without; with no fact candidate a direct
personal question yields PURE_MEMORY_QUERY; otherwise a policy keyword
yields PURE_POLICY_QUERY; otherwise UNKNOWN. -/
theorem detectHighLevelIntent_matches_spec (q : String) (keyFact : Option KeyFact)
    (hasPolicyKeyword : Bool) (isDirectPersonalQuestion : Bool) :
    detectHighLevelIntent q keyFact hasPolicyKeyword isDirectPersonalQuestion
      = specIntentResolution keyFact hasPolicyKeyword isDirectPersonalQuestion := by
  cases keyFact with
  | none =>
    simp only [detectHighLevelIntent, specIntentResolution]
    cases isDirectPersonalQuestion <;> cases hasPolicyKeyword <;> simp
  | some kf =>
    simp only [detectHighLevelIntent, specIntentResolution]
    by_cases h : kf.intent = FactIntent.asking <;>
      cases hasPolicyKeyword <;> simp [h]

/-- C2: in every RAG retrieval, filteredChunks is exactly the threshold
filter of the topK raw chunks (whose distances are always present),
finalChunks is filteredChunks when that is non-empty and rawChunks
otherwise; when every candidate exceeds the threshold the result falls
back to rawChunks, hence is non-empty whenever rawChunks is. -/
theorem getRagContextForQuery_fallback (table : List StoredChunk) (topK : Nat)
    (threshold : ℚ) :
    (∀ c ∈ (getRagContextForQuery table topK threshold).rawChunks, c.distance ≠ none)
    ∧ (getRagContextForQuery table topK threshold).filteredChunks
        = (getRagContextForQuery table topK threshold).rawChunks.filter
            (fun c =>
              match c.distance with
              | some d => decide (d ≤ threshold)
              | none => false)
    ∧ ((getRagContextForQuery table topK threshold).filteredChunks ≠ [] →
        (getRagContextForQuery table topK threshold).finalChunks
          = (getRagContextForQuery table topK threshold).filteredChunks)
    ∧ ((getRagContextForQuery table topK threshold).filteredChunks = [] →
        (getRagContextForQuery table topK threshold).finalChunks
          = (getRagContextForQuery table topK threshold).rawChunks)
    ∧ ((∀ c ∈ (getRagContextForQuery table topK threshold).rawChunks,
          ∀ d, c.distance = some d → threshold < d) →
        (getRagContextForQuery table topK threshold).finalChunks
          = (getRagContextForQuery table topK threshold).rawChunks)
    ∧ ((getRagContextForQuery table topK threshold).rawChunks ≠ [] →
        (getRagContextForQuery table topK threshold).finalChunks ≠ []) := by
  refine ⟨?_, ?_, ?_, ?_, ?_, ?_⟩
  · intro c hc
    simp only [getRagContextForQuery, queryChunksByEmbedding, List.mem_map] at hc
    obtain ⟨s, _, rfl⟩ := hc
    simp
  · rfl
  · intro h
    simp only [getRagContextForQuery]
    rw [if_pos]
    exact List.length_pos.mpr h
  · intro h
    simp only [getRagContextForQuery] at h ⊢
    rw [if_neg]
    simp [h]
  · intro h
    simp only [getRagContextForQuery] at h ⊢
    rw [if_neg]
    intro hpos
    obtain ⟨c, hc⟩ := List.exists_mem_of_length_pos hpos
    have hmem := List.mem_filter.mp hc
    obtain ⟨hcraw, hcfilt⟩ := hmem
    cases hd : c.distance with
    | none => simp [hd] at hcfilt
    | some d =>
      have := h c hcraw d hd
      simp [hd] at hcfilt
      exact absurd hcfilt (not_le.mpr this)
  · intro h
    simp only [getRagContextForQuery]
    by_cases hf :
      (List.filter
        (fun chunk =>
          match chunk.distance with
          | some d => decide (d ≤ threshold)
          | none => false)
        (queryChunksByEmbedding table topK)).length > 0
    · rw [if_pos hf]
      intro hnil
      rw [hnil] at hf
      simp at hf
    · rw [if_neg hf]
      exact h

/-- Witness for C2 at a concrete store: a single chunk at distance 2
with threshold 1 is filtered out, and the fallback returns the raw set. -/
theorem getRagContextForQuery_fallback_witness :
    (getRagContextForQuery [⟨1, 1, 0, "alpha", 2⟩] 5 1).finalChunks
      = (getRagContextForQuery [⟨1, 1, 0, "alpha", 2⟩] 5 1).rawChunks := by
  have h := getRagContextForQuery_fallback [⟨1, 1, 0, "alpha", 2⟩] 5 1
  exact h.2.2.2.2.1 (by decide)

/- ------------------------------------------------------------------ -/
/- Retry wrapper (OpenAIAdapter: withRetry, isRetryableError)          -/
/- ------------------------------------------------------------------ -/

/-- The error shape inspected by isRetryableError in OpenAIAdapter
(interface RetryableErrorShape): a code, a nested cause code, and the
three places an HTTP status may live. Absent fields are none. -/
structure NetError where
  code : Option String
  causeCode : Option String
  statusCode : Option Int
  status : Option Int
  responseStatus : Option Int
deriving DecidableEq, Repr

/-- isRetryableError from OpenAIAdapter: the code is candidate.code
falling back to candidate.cause.code, retryable when it is ECONNRESET
or ETIMEDOUT; otherwise the status is statusCode, falling back to
status, falling back to response.status, retryable when it is one of
429, 500, 502, 503. -/
def isRetryableError (e : NetError) : Bool :=
  let code := match e.code with
    | some c => some c
    | none => e.causeCode
  let codeHit := match code with
    | some c => c == "ECONNRESET" || c == "ETIMEDOUT"
    | none => false
  if codeHit then true
  else
    let status := match e.statusCode with
      | some s => some s
      | none =>
        match e.status with
        | some s => some s
        | none => e.responseStatus
    match status with
    | some s => s == 429 || s == 500 || s == 502 || s == 503
    | none => false

/-- The fixed backoff table of withRetry. -/
def backoffDelays : List Nat := [0, 200, 500]

/-- Observable behavior of one withRetry invocation: the final outcome,
the 1-based indices of the attempts that ran, the retries that were
logged (attempt index and error), and the delay values awaited, in
order. -/
structure RetryTrace (A : Type) where
  result : Except NetError A
  attempts : List Nat
  loggedRetries : List (Nat × NetError)
  delays : List Nat
deriving Repr

deriving instance DecidableEq for Except

deriving instance DecidableEq for RetryTrace

/-- The loop body of withRetry. fn gives the outcome of each 1-based
attempt. Before every attempt after the first, backoffDelays[attempt-1]
is awaited. A failed attempt stops (re-throwing the error unchanged)
when the error is not retryable or the attempt index equals the length
of the backoff table; otherwise the retry is logged and the loop
continues. The fuel argument only forces termination; the top-level
entry point provides enough fuel that the none case is unreachable
(withRetryGo_total). -/
def withRetryGo {A : Type} (fn : Nat → Except NetError A) :
    Nat → Nat → Option (RetryTrace A)
  | _, 0 => none
  | attempt, fuel + 1 =>
    let ds : List Nat := if 1 < attempt then [backoffDelays.getD (attempt - 1) 0] else []
    match fn attempt with
    | Except.ok a => some ⟨Except.ok a, [attempt], [], ds⟩
    | Except.error e =>
      if isRetryableError e = false ∨ attempt = backoffDelays.length then
        some ⟨Except.error e, [attempt], [], ds⟩
      else
        match withRetryGo fn (attempt + 1) fuel with
        | none => none
        | some rest =>
          some ⟨rest.result, attempt :: rest.attempts,
                (attempt, e) :: rest.loggedRetries, ds ++ rest.delays⟩

/-- withRetry from OpenAIAdapter: attempts run from 1 up to the length
of the backoff table (3 attempts total). -/
def withRetry {A : Type} (fn : Nat → Except NetError A) : Option (RetryTrace A) :=
  withRetryGo fn 1 backoffDelays.length

/-- The loop always produces a trace when entered with fuel reaching the
last attempt index: the trailing throw after the loop is unreachable. -/
theorem withRetryGo_total {A : Type} (fn : Nat → Except NetError A) :
    ∀ fuel attempt, attempt + fuel = backoffDelays.length + 1 → 0 < fuel →
      (withRetryGo fn attempt fuel).isSome := by
  intro fuel
  induction fuel with
  | zero => intro attempt _ h0; exact absurd h0 (by omega)
  | succ n ih =>
    intro attempt hsum _
    simp only [withRetryGo]
    split
    · simp
    · split
      case isTrue => simp
      case isFalse e hfn hstop =>
        have hlt : attempt < backoffDelays.length := by
          rcases Nat.lt_or_ge attempt backoffDelays.length with h | h
          · exact h
          · exact absurd (Or.inr (by omega)) hstop
        have hn : 0 < n := by
          simp only [backoffDelays, List.length_cons, List.length_nil] at hsum hlt ⊢
          omega
        have := ih (attempt + 1) (by omega) hn
        split
        case h_1 hrec =>
          rw [hrec] at this
          simp at this
        case h_2 => simp

/-- A trace holds at most fuel attempts. -/
theorem withRetryGo_attempts_le {A : Type} (fn : Nat → Except NetError A) :
    ∀ fuel attempt tr, withRetryGo fn attempt fuel = some tr →
      tr.attempts.length ≤ fuel := by
  intro fuel
  induction fuel with
  | zero => intro attempt tr h; simp [withRetryGo] at h
  | succ n ih =>
    intro attempt tr h
    simp only [withRetryGo] at h
    split at h
    · simp at h
      rw [← h]
      simp
    · split at h
      · simp at h
        rw [← h]
        simp
      · split at h
        case h_1 => simp at h
        case h_2 rest hrec =>
          simp at h
          rw [← h]
          simpa using ih (attempt + 1) rest hrec

/-- Every logged retry carries a retryable error that the corresponding
attempt produced. -/
theorem withRetryGo_logged {A : Type} (fn : Nat → Except NetError A) :
    ∀ fuel attempt tr, withRetryGo fn attempt fuel = some tr →
      ∀ p ∈ tr.loggedRetries,
        isRetryableError p.2 = true ∧ fn p.1 = Except.error p.2 := by
  intro fuel
  induction fuel with
  | zero => intro attempt tr h; simp [withRetryGo] at h
  | succ n ih =>
    intro attempt tr h
    simp only [withRetryGo] at h
    split at h
    · simp at h
      rw [← h]
      intro p hp
      simp at hp
    case h_2 e hfn =>
      split at h
      case isTrue =>
        simp at h
        rw [← h]
        intro p hp
        simp at hp
      case isFalse hstop =>
        split at h
        case h_1 => simp at h
        case h_2 rest hrec =>
          simp at h
          rw [← h]
          intro p hp
          simp at hp
          rcases hp with hp | hp
          · rw [hp]
            refine ⟨?_, hfn⟩
            rcases Bool.eq_false_or_eq_true (isRetryableError e) with ht | hf
            · exact ht
            · exact absurd (Or.inl hf) hstop
          · exact ih (attempt + 1) rest hrec p hp

/-- When the wrapper ends in an error, that error is exactly the one
some attempt produced, and the wrapper stopped there either because the
error was not retryable or because the attempt budget was exhausted. -/
theorem withRetryGo_error {A : Type} (fn : Nat → Except NetError A) :
    ∀ fuel attempt tr e, withRetryGo fn attempt fuel = some tr →
      tr.result = Except.error e →
      ∃ k ∈ tr.attempts, fn k = Except.error e ∧
        (isRetryableError e = false ∨ k = backoffDelays.length) := by
  intro fuel
  induction fuel with
  | zero => intro attempt tr e h; simp [withRetryGo] at h
  | succ n ih =>
    intro attempt tr e h hres
    simp only [withRetryGo] at h
    split at h
    · simp at h
      rw [← h] at hres
      simp at hres
    case h_2 e0 hfn =>
      split at h
      case isTrue hstop =>
        simp at h
        rw [← h] at hres ⊢
        simp at hres ⊢
        refine ⟨?_, ?_⟩
        · rw [hfn, hres]
        · rw [← hres]; exact hstop
      case isFalse hstop =>
        split at h
        case h_1 => simp at h
        case h_2 rest hrec =>
          simp at h
          rw [← h] at hres ⊢
          simp at hres
          obtain ⟨k, hk, hke, hkstop⟩ := ih (attempt + 1) rest e hrec hres
          exact ⟨k, by simp [hk], hke, hkstop⟩

/-- An error carrying HTTP status 500, as produced by the port in the
retry scenario of the specification. -/
def http500Error : NetError := ⟨none, none, some 500, none, none⟩

/-- An error carrying HTTP status 400: not in the retryable set. -/
def err400 : NetError := ⟨none, none, some 400, none, none⟩

/-- The retry scenario: the port fails with HTTP 500 on attempts 1 and 2
and succeeds on attempt 3. -/
def retryScenarioFn (attempt : Nat) : Except NetError Nat :=
  if attempt ≤ 2 then Except.error http500Error else Except.ok 42

/-- C4 counterexample: in the fail-fail-succeed scenario the wrapper
succeeds with exactly two logged retries, but the delays awaited before
the second and third attempts are 200ms then 500ms, not the 0ms then
200ms the claim states. -/
theorem withRetry_scenario_delays_cex :
    withRetry retryScenarioFn
      = some ⟨Except.ok 42, [1, 2, 3],
              [(1, http500Error), (2, http500Error)], [200, 500]⟩
    ∧ ([200, 500] : List Nat) ≠ [0, 200] := by
  constructor
  · decide
  · decide

/-- C4 (amended): the wrapper makes at most 3 attempts; every logged
retry was a retryable failure of its attempt; an error result is the
last error re-thrown unchanged, kept only when it was non-retryable or
the budget was exhausted; a non-retryable first failure propagates
immediately with no retries and no delays; and in the HTTP-500 scenario
the third attempt succeeds with exactly 2 logged retries after delays of
200ms then 500ms (not 0ms then 200ms as the original claim stated). -/
theorem withRetry_bounded_retry_policy :
    (∀ fn : Nat → Except NetError Nat, ∃ tr, withRetry fn = some tr
      ∧ tr.attempts.length ≤ 3
      ∧ (∀ p ∈ tr.loggedRetries,
          isRetryableError p.2 = true ∧ fn p.1 = Except.error p.2)
      ∧ (∀ e, tr.result = Except.error e →
          ∃ k ∈ tr.attempts, fn k = Except.error e ∧
            (isRetryableError e = false ∨ k = 3))
      ∧ (∀ e, fn 1 = Except.error e → isRetryableError e = false →
          tr = ⟨Except.error e, [1], [], []⟩))
    ∧ withRetry retryScenarioFn
        = some ⟨Except.ok 42, [1, 2, 3],
                [(1, http500Error), (2, http500Error)], [200, 500]⟩ := by
  constructor
  · intro fn
    have htot := withRetryGo_total fn backoffDelays.length 1
      (by simp [backoffDelays]) (by simp [backoffDelays])
    rw [Option.isSome_iff_exists] at htot
    obtain ⟨tr, htr⟩ := htot
    refine ⟨tr, htr, ?_, ?_, ?_, ?_⟩
    · have := withRetryGo_attempts_le fn backoffDelays.length 1 tr htr
      simpa [backoffDelays] using this
    · exact withRetryGo_logged fn backoffDelays.length 1 tr htr
    · intro e hres
      have := withRetryGo_error fn backoffDelays.length 1 tr e htr hres
      simpa [backoffDelays] using this
    · intro e h1 hnr
      have hval : withRetryGo fn 1 backoffDelays.length
          = some ⟨Except.error e, [1], [], []⟩ := by
        simp [backoffDelays, withRetryGo, h1, hnr]
      rw [htr] at hval
      exact Option.some_inj.mp hval
  · decide

/-- Witness for C4 at a concrete non-retryable port failure: a first
attempt failing with HTTP 400 propagates immediately with no retries
and no delays. -/
theorem withRetry_bounded_retry_policy_witness :
    withRetry (fun _ => (Except.error err400 : Except NetError Nat))
      = some ⟨Except.error err400, [1], [], []⟩ := by
  obtain ⟨tr, htr, _, _, _, himm⟩ :=
    withRetry_bounded_retry_policy.1 (fun _ => (Except.error err400 : Except NetError Nat))
  rw [htr, himm err400 rfl (by decide)]

/- ------------------------------------------------------------------ -/
/- Memory store (memoryService: saveMemory)                            -/
/- ------------------------------------------------------------------ -/

/-- A row of the user_memories table. updated_at is a millisecond epoch
timestamp; the embedding column stores the vector computed from the
content by the embedding port. -/
structure MemRow where
  id : Nat
  user_id : String
  role : String
  content : String
  embedding : String
  memory_key : Option String
  memory_type : MemoryType
  updated_at : Int
deriving DecidableEq, Repr

/-- The embedding port embedText, abstracted: the vector produced for a
text is represented by the text itself (the port is a deterministic
function of its input for the purposes of the storage discipline). -/
def embedVec (text : String) : String := text

/-- The appended row of the chat INSERT: memory_key NULL and
memory_type chat. -/
def chatRow (nextId : Nat) (now : Int) (userId role content : String) : MemRow :=
  ⟨nextId, userId, role, content, embedVec content, none, MemoryType.chat, now⟩

/-- The ON CONFLICT (user_id, memory_key) target: a row matches when it
belongs to the user and carries exactly this non-null key. -/
def keyMatches (userId k : String) (r : MemRow) : Bool :=
  r.user_id == userId && r.memory_key == some k

/-- The DO UPDATE assignment of the fact upsert in memoryService:
content, embedding, memory_type and updated_at are overwritten; id,
user_id, role and memory_key are untouched. -/
def updateRow (content : String) (now : Int) (r : MemRow) : MemRow :=
  { r with content := content, embedding := embedVec content,
           memory_type := MemoryType.fact, updated_at := now }

/-- saveMemory from memoryService: when memoryType is fact and
memoryKey is a truthy (non-empty) string, INSERT with ON CONFLICT
(user_id, memory_key) DO UPDATE; otherwise INSERT a chat row with NULL
key. nextId models the sequence behind the id column and grows only on
a true INSERT. -/
def saveMemory (st : List MemRow) (nextId : Nat) (now : Int)
    (userId role content : String) (memoryKey : Option String)
    (memoryType : MemoryType) : List MemRow × Nat :=
  match memoryType, memoryKey with
  | MemoryType.fact, some k =>
    if k ≠ "" then
      if st.any (keyMatches userId k) then
        (st.map (fun r => if keyMatches userId k r then updateRow content now r else r),
         nextId)
      else
        (st ++ [⟨nextId, userId, role, content, embedVec content, some k,
                 MemoryType.fact, now⟩], nextId + 1)
    else
      (st ++ [chatRow nextId now userId role content], nextId + 1)
  | _, _ => (st ++ [chatRow nextId now userId role content], nextId + 1)

/-- A sequence of chat saves with the given contents, threading the
state, as N calls to saveMemory with memoryType chat. -/
def saveChats (st : List MemRow) (nextId : Nat) (now : Int) (userId role : String) :
    List String → List MemRow × Nat
  | [] => (st, nextId)
  | c :: cs =>
    saveChats (saveMemory st nextId now userId role c none MemoryType.chat).1
      (saveMemory st nextId now userId role c none MemoryType.chat).2
      now userId role cs

/-- The rows a sequence of chat saves appends: one per content, with
consecutive fresh ids. -/
def chatRows (nextId : Nat) (now : Int) (userId role : String) :
    List String → List MemRow
  | [] => []
  | c :: cs => chatRow nextId now userId role c :: chatRows (nextId + 1) now userId role cs

/-- The invariant granted by the unique(user_id, memory_key) index: at
most one row per user and non-null key. -/
def KeyUnique (st : List MemRow) : Prop :=
  ∀ u k, (st.filter (keyMatches u k)).length ≤ 1

/-- The invariant that every fact row carries a non-null key. -/
def FactKeyInv (st : List MemRow) : Prop :=
  ∀ row ∈ st, row.memory_type = MemoryType.fact → row.memory_key ≠ none

theorem keyMatches_iff (u k : String) (r : MemRow) :
    keyMatches u k r = true ↔ r.user_id = u ∧ r.memory_key = some k := by
  simp [keyMatches]

theorem keyMatches_updateRow (u k c : String) (now : Int) (r : MemRow) :
    keyMatches u k (updateRow c now r) = keyMatches u k r := rfl

/-- Filtering by any conflict target commutes with the conditional
update map: the update never changes user_id or memory_key. -/
theorem filter_update_map (u0 k0 u k c : String) (now : Int) (st : List MemRow) :
    (st.map (fun r => if keyMatches u0 k0 r then updateRow c now r else r)).filter
        (keyMatches u k)
      = (st.filter (keyMatches u k)).map
          (fun r => if keyMatches u0 k0 r then updateRow c now r else r) := by
  rw [List.filter_map]
  congr 1
  apply List.filter_congr
  intro r _
  by_cases h : keyMatches u0 k0 r = true
  · simp [Function.comp, h, keyMatches_updateRow]
  · simp [Function.comp, h]

/-- After a fact save with a non-empty key into a key-unique store,
exactly one row carries the (user, key) pair, and it holds the saved
content, its embedding, fact type and the new timestamp. -/
theorem saveMemory_fact_state (st : List MemRow) (n : Nat) (now : Int)
    (u r c k : String) (hk : k ≠ "") (huniq : KeyUnique st) :
    (((saveMemory st n now u r c (some k) MemoryType.fact).1.filter
        (keyMatches u k)).length = 1)
    ∧ ∀ row ∈ (saveMemory st n now u r c (some k) MemoryType.fact).1.filter
        (keyMatches u k),
        row.content = c ∧ row.embedding = embedVec c
          ∧ row.memory_type = MemoryType.fact ∧ row.updated_at = now := by
  simp only [saveMemory, if_pos hk]
  by_cases hany : st.any (keyMatches u k) = true
  · rw [if_pos hany]
    rw [filter_update_map]
    constructor
    · rw [List.length_map]
      have hle := huniq u k
      rw [List.any_eq_true] at hany
      obtain ⟨x, hx, hpx⟩ := hany
      have hxf : x ∈ st.filter (keyMatches u k) := List.mem_filter.mpr ⟨hx, hpx⟩
      have hpos : 0 < (st.filter (keyMatches u k)).length :=
        List.length_pos.mpr (List.ne_nil_of_mem hxf)
      omega
    · intro row hrow
      rw [List.mem_map] at hrow
      obtain ⟨x, hx, hxe⟩ := hrow
      have hpx : keyMatches u k x = true := (List.mem_filter.mp hx).2
      rw [if_pos hpx] at hxe
      rw [← hxe]
      exact ⟨rfl, rfl, rfl, rfl⟩
  · rw [if_neg hany]
    have hnew : keyMatches u k
        (⟨n, u, r, c, embedVec c, some k, MemoryType.fact, now⟩ : MemRow) = true := by
      simp [keyMatches]
    have hnil : st.filter (keyMatches u k) = [] := by
      rw [List.filter_eq_nil_iff]
      intro a ha hpa
      exact hany (List.any_eq_true.mpr ⟨a, ha, hpa⟩)
    rw [List.filter_append, hnil]
    simp only [List.nil_append, List.filter, hnew]
    constructor
    · simp
    · intro row hrow
      simp at hrow
      rw [hrow]
      exact ⟨rfl, rfl, rfl, rfl⟩

/-- Every saveMemory call preserves key uniqueness. -/
theorem saveMemory_preserves_KeyUnique (st : List MemRow) (n : Nat) (now : Int)
    (u r c : String) (mk : Option String) (mt : MemoryType)
    (huniq : KeyUnique st) : KeyUnique (saveMemory st n now u r c mk mt).1 := by
  intro u' k'
  have hchat : ∀ nid,
      ((st ++ [chatRow nid now u r c]).filter (keyMatches u' k')).length ≤ 1 := by
    intro nid
    rw [List.filter_append]
    have : keyMatches u' k' (chatRow nid now u r c) = false := by
      simp [keyMatches, chatRow]
    simp only [List.filter, this]
    simpa using huniq u' k'
  match mt, mk with
  | MemoryType.fact, some k =>
    simp only [saveMemory]
    by_cases hk : k ≠ ""
    · rw [if_pos hk]
      by_cases hany : st.any (keyMatches u k) = true
      · rw [if_pos hany]
        rw [filter_update_map, List.length_map]
        exact huniq u' k'
      · rw [if_neg hany]
        rw [List.filter_append]
        by_cases hmatch : keyMatches u' k'
            (⟨n, u, r, c, embedVec c, some k, MemoryType.fact, now⟩ : MemRow) = true
        · have hk' : u' = u ∧ k' = k := by
            rw [keyMatches_iff] at hmatch
            obtain ⟨h1, h2⟩ := hmatch
            simp at h1 h2
            exact ⟨h1.symm, h2.symm⟩
          obtain ⟨rfl, rfl⟩ := hk'
          have hnil : st.filter (keyMatches u' k') = [] := by
            rw [List.filter_eq_nil_iff]
            intro a ha hpa
            exact hany (List.any_eq_true.mpr ⟨a, ha, hpa⟩)
          rw [hnil]
          simp [List.filter, hmatch]
        · rw [Bool.not_eq_true] at hmatch
          simp only [List.filter, hmatch]
          simpa using huniq u' k'
    · rw [if_neg hk]
      exact hchat n
  | MemoryType.fact, none => exact hchat n
  | MemoryType.chat, mk => exact hchat n

/-- Every saveMemory call preserves the fact-rows-are-keyed invariant. -/
theorem saveMemory_preserves_FactKeyInv (st : List MemRow) (n : Nat) (now : Int)
    (u r c : String) (mk : Option String) (mt : MemoryType)
    (hinv : FactKeyInv st) : FactKeyInv (saveMemory st n now u r c mk mt).1 := by
  have hchat : ∀ nid, FactKeyInv (st ++ [chatRow nid now u r c]) := by
    intro nid row hrow htype
    rw [List.mem_append] at hrow
    rcases hrow with hrow | hrow
    · exact hinv row hrow htype
    · simp at hrow
      rw [hrow] at htype
      simp [chatRow] at htype
  match mt, mk with
  | MemoryType.fact, some k =>
    simp only [saveMemory]
    by_cases hk : k ≠ ""
    · rw [if_pos hk]
      by_cases hany : st.any (keyMatches u k) = true
      · rw [if_pos hany]
        intro row hrow htype
        rw [List.mem_map] at hrow
        obtain ⟨x, hx, hxe⟩ := hrow
        by_cases hpx : keyMatches u k x = true
        · rw [if_pos hpx] at hxe
          rw [keyMatches_iff] at hpx
          rw [← hxe]
          simp only [updateRow]
          rw [hpx.2]
          simp
        · rw [if_neg hpx] at hxe
          rw [← hxe]
          exact hinv x hx (by rw [hxe]; exact htype)
      · rw [if_neg hany]
        intro row hrow htype
        rw [List.mem_append] at hrow
        rcases hrow with hrow | hrow
        · exact hinv row hrow htype
        · simp at hrow
          rw [hrow]
          simp
    · rw [if_neg hk]
      exact hchat n
  | MemoryType.fact, none => exact hchat n
  | MemoryType.chat, mk => exact hchat n

/-- N chat saves append exactly N rows, one per content, with
consecutive fresh ids: chat memories are never merged. -/
theorem saveChats_appends (now : Int) (u r : String) :
    ∀ (cs : List String) (st : List MemRow) (n : Nat),
      saveChats st n now u r cs = (st ++ chatRows n now u r cs, n + cs.length) := by
  intro cs
  induction cs with
  | nil => intro st n; simp [saveChats, chatRows]
  | cons c cs ih =>
    intro st n
    simp only [saveChats, saveMemory, chatRows]
    rw [ih, Prod.mk.injEq]
    constructor
    · simp
    · simp only [List.length_cons]
      omega

/-- Every row appended by a chat-save sequence is an unkeyed chat row. -/
theorem chatRows_shape (now : Int) (u r : String) :
    ∀ (cs : List String) (n : Nat), ∀ row ∈ chatRows n now u r cs,
      row.memory_type = MemoryType.chat ∧ row.memory_key = none ∧ row.user_id = u := by
  intro cs
  induction cs with
  | nil => intro n row hrow; simp [chatRows] at hrow
  | cons c cs ih =>
    intro n row hrow
    simp only [chatRows, List.mem_cons] at hrow
    rcases hrow with hrow | hrow
    · rw [hrow]; exact ⟨rfl, rfl, rfl⟩
    · exact ih (n + 1) row hrow

/-- The state after saving the same (user, key) fact twice with possibly
different contents. -/
def saveFactTwice (st : List MemRow) (n : Nat) (now1 now2 : Int)
    (u r1 r2 c1 c2 k : String) : List MemRow :=
  ((saveMemory (saveMemory st n now1 u r1 c1 (some k) MemoryType.fact).1
    (saveMemory st n now1 u r1 c1 (some k) MemoryType.fact).2
    now2 u r2 c2 (some k) MemoryType.fact).1)

/-- C3 counterexample: with memoryType fact and the non-null memoryKey
(some empty string), saveMemory does not upsert a fact row on the pair;
the empty key is falsy in the source, so the call falls through to the
chat branch and appends an unkeyed chat row. -/
theorem saveMemory_empty_key_cex :
    (saveMemory [] 1 0 "u" "user" "c" (some "") MemoryType.fact).1
      = [⟨1, "u", "user", "c", "c", none, MemoryType.chat, 0⟩] := by
  decide

/-- C3 (amended): for memoryType fact and a non-null, non-empty
memoryKey, saveMemory upserts on (userId, memoryKey): saving the same
pair twice into a key-unique store leaves exactly one row for the pair,
holding the latest content and embedding; every chat-typed save appends
a fresh unkeyed row, so N chat saves produce N rows; and key uniqueness
(at most one keyed row per user and non-null key) is preserved by every
save. -/
theorem saveMemory_upsert_semantics :
    (∀ (st : List MemRow) (n : Nat) (now1 now2 : Int) (u r1 r2 c1 c2 k : String),
      KeyUnique st → k ≠ "" →
      ((saveFactTwice st n now1 now2 u r1 r2 c1 c2 k).filter
          (keyMatches u k)).length = 1
      ∧ ∀ row ∈ (saveFactTwice st n now1 now2 u r1 r2 c1 c2 k).filter
          (keyMatches u k),
          row.content = c2 ∧ row.embedding = embedVec c2
            ∧ row.memory_type = MemoryType.fact)
    ∧ (∀ (st : List MemRow) (n : Nat) (now : Int) (u r c : String)
        (mk : Option String),
        saveMemory st n now u r c mk MemoryType.chat
          = (st ++ [chatRow n now u r c], n + 1))
    ∧ (∀ (st : List MemRow) (n : Nat) (now : Int) (u r : String)
        (cs : List String),
        saveChats st n now u r cs = (st ++ chatRows n now u r cs, n + cs.length))
    ∧ (∀ (n : Nat) (now : Int) (u r : String) (cs : List String),
        ∀ row ∈ chatRows n now u r cs,
          row.memory_type = MemoryType.chat ∧ row.memory_key = none)
    ∧ (∀ (st : List MemRow) (n : Nat) (now : Int) (u r c : String)
        (mk : Option String) (mt : MemoryType),
        KeyUnique st → KeyUnique (saveMemory st n now u r c mk mt).1) := by
  refine ⟨?_, ?_, ?_, ?_, ?_⟩
  · intro st n now1 now2 u r1 r2 c1 c2 k huniq hk
    have huniq1 : KeyUnique (saveMemory st n now1 u r1 c1 (some k) MemoryType.fact).1 :=
      saveMemory_preserves_KeyUnique st n now1 u r1 c1 (some k) MemoryType.fact huniq
    have h := saveMemory_fact_state
      (saveMemory st n now1 u r1 c1 (some k) MemoryType.fact).1
      (saveMemory st n now1 u r1 c1 (some k) MemoryType.fact).2
      now2 u r2 c2 k hk huniq1
    refine ⟨h.1, ?_⟩
    intro row hrow
    have := h.2 row hrow
    exact ⟨this.1, this.2.1, this.2.2.1⟩
  · intro st n now u r c mk
    cases mk <;> rfl
  · intro st n now u r cs
    exact saveChats_appends now u r cs st n
  · intro n now u r cs row hrow
    have := chatRows_shape now u r cs n row hrow
    exact ⟨this.1, this.2.1⟩
  · intro st n now u r c mk mt huniq
    exact saveMemory_preserves_KeyUnique st n now u r c mk mt huniq

/-- Witness for C3 at a concrete store: saving the name fact twice for
one user leaves exactly one name row holding the second content. -/
theorem saveMemory_upsert_semantics_witness :
    ((saveFactTwice [] 1 0 0 "u" "user" "user" "Aditia" "Budi" "name").filter
        (keyMatches "u" "name")).length = 1 := by
  have h := saveMemory_upsert_semantics.1 [] 1 0 0 "u" "user" "user"
    "Aditia" "Budi" "name" (by intro u k; simp) (by decide)
  exact h.1

/-- C10: a fact save with no memoryKey provided falls through to the
chat branch and appends an unkeyed chat row (no error, no upsert), and
consequently the invariant that every fact row carries a non-null
memory_key is preserved by every saveMemory call. -/
theorem saveMemory_fact_without_key :
    (∀ (st : List MemRow) (n : Nat) (now : Int) (u r c : String),
      saveMemory st n now u r c none MemoryType.fact
        = (st ++ [chatRow n now u r c], n + 1)
      ∧ (chatRow n now u r c).memory_type = MemoryType.chat
      ∧ (chatRow n now u r c).memory_key = none)
    ∧ (∀ (st : List MemRow) (n : Nat) (now : Int) (u r c : String)
        (mk : Option String) (mt : MemoryType),
        FactKeyInv st → FactKeyInv (saveMemory st n now u r c mk mt).1) := by
  constructor
  · intro st n now u r c
    exact ⟨rfl, rfl, rfl⟩
  · intro st n now u r c mk mt hinv
    exact saveMemory_preserves_FactKeyInv st n now u r c mk mt hinv

/-- Witness for C10 at a concrete store: after a keyless fact save into
the empty store, every fact row still carries a non-null key. -/
theorem saveMemory_fact_without_key_witness :
    FactKeyInv (saveMemory [] 1 0 "u" "user" "coffee" none MemoryType.fact).1 := by
  exact saveMemory_fact_without_key.2 [] 1 0 "u" "user" "coffee" none MemoryType.fact
    (by intro row hrow; simp at hrow)

/- ------------------------------------------------------------------ -/
/- Ranked memory retrieval (PostgresMemoryRepository.retrieveMemory)   -/
/- ------------------------------------------------------------------ -/

/-- A user_memories row as seen by the retrieval query. The dist field
models the computed SQL expression embedding <-> query for the query
embedding under consideration; updated_at may be NULL. -/
structure StoredMemRow where
  content : String
  role : String
  memory_key : Option String
  memory_type : MemoryType
  updated_at : Option Int
  dist : ℚ
deriving DecidableEq, Repr

/-- MemoryRow, the row shape the repository scores (interface MemoryRow
in PostgresMemoryRepository): distance and updated_at are nullable in
the TypeScript type; rows coming back from the query always carry a
computed distance. -/
structure MemoryRow where
  content : String
  memory_key : Option String
  memory_type : MemoryType
  updated_at : Option Int
  distance : Option ℚ
deriving DecidableEq, Repr

/-- The candidate fetch of retrieveMemory: filter by role unless the
role filter is the string any, order by embedding <-> query ascending,
LIMIT candidateLimit, and surface the computed distance. -/
def fetchCandidates (table : List StoredMemRow) (role : String)
    (candidateLimit : Nat) : List MemoryRow :=
  ((List.insertionSort (fun a b : StoredMemRow => a.dist ≤ b.dist)
      (if role = "any" then table else table.filter (fun r => r.role == role))).take
      candidateLimit).map
    (fun r => ⟨r.content, r.memory_key, r.memory_type, r.updated_at, some r.dist⟩)

/-- The THIRTY_DAYS_MS constant of the repository. -/
def THIRTY_DAYS_MS : ℚ := 30 * 24 * 60 * 60 * 1000

/-- The composite score computed per candidate in retrieveMemory:
similarity (clamped 1 - distance, 0 when the distance is not a number),
recency (clamped 1 - age/30days, 0.5 when updated_at is NULL) and the
fact-type boost, weighted 0.6 / 0.3 / 0.2. -/
def codeScore (now : Int) (r : MemoryRow) : ℚ :=
  (match r.distance with
    | some d => max 0 (min 1 (1 - d))
    | none => 0) * (6/10)
  + (match r.updated_at with
    | some ts => max 0 (min 1 (1 - ((now : ℚ) - (ts : ℚ)) / THIRTY_DAYS_MS))
    | none => 1/2) * (3/10)
  + (if r.memory_type = MemoryType.fact then 2/10 else 0)

/-- retrieveMemory from PostgresMemoryRepository: over-fetch
max(limit*3, limit) candidates by raw distance, score each candidate,
sort by score descending, return the contents of the top limit. -/
def retrieveMemory (table : List StoredMemRow) (role : String)
    (limit : Nat) (now : Int) : List String :=
  ((List.insertionSort (fun a b : MemoryRow × ℚ => b.2 ≤ a.2)
      ((fetchCandidates table role (max (limit * 3) limit)).map
        (fun r => (r, codeScore now r)))).take limit).map
    (fun p => p.1.content)

/-- clamp(x, lo, hi) as used by the specification formula. -/
def clamp (x lo hi : ℚ) : ℚ := max lo (min hi x)

/-- Milliseconds per day, used to express age in days. -/
def MS_PER_DAY : ℚ := 86400000

/-- The ranking score exactly as the specification states it:
similarity*0.6 + recency*0.3 + typeBoost with
similarity = clamp(1 - distance, 0, 1),
recency = clamp(1 - ageInDays/30, 0, 1) (0.5 with no timestamp), and
typeBoost = 0.2 for fact rows and 0 for chat rows. -/
def specScore (now : Int) (d : ℚ) (updated : Option Int) (t : MemoryType) : ℚ :=
  clamp (1 - d) 0 1 * (3/5)
  + (match updated with
    | some ts => clamp (1 - (((now : ℚ) - (ts : ℚ)) / MS_PER_DAY) / 30) 0 1
    | none => 1/2) * (3/10)
  + (if t = MemoryType.fact then 1/5 else 0)

/-- The specification score read off a fetched row. -/
def specScoreRow (now : Int) (r : MemoryRow) : ℚ :=
  specScore now (r.distance.getD 0) r.updated_at r.memory_type

/-- On every row with a computed distance, the implementation score
equals the specification formula (age in milliseconds over 30 days of
milliseconds coincides with age in days over 30). -/
theorem codeScore_eq_specScoreRow (now : Int) (r : MemoryRow) (d : ℚ)
    (hd : r.distance = some d) : codeScore now r = specScoreRow now r := by
  have hdays : ∀ ts : Int, (((now : ℚ) - (ts : ℚ)) / MS_PER_DAY) / 30
      = ((now : ℚ) - (ts : ℚ)) / THIRTY_DAYS_MS := by
    intro ts
    rw [div_div]
    norm_num [MS_PER_DAY, THIRTY_DAYS_MS]
  rcases r with ⟨content, mk, mt, upd, dist⟩
  simp only at hd
  subst hd
  cases upd with
  | none =>
    dsimp only [codeScore, specScoreRow, specScore, clamp, Option.getD]
    cases mt
    · rw [if_pos rfl, if_pos rfl]
      ring
    · rw [if_neg (by decide), if_neg (by decide)]
      ring
  | some ts =>
    dsimp only [codeScore, specScoreRow, specScore, clamp, Option.getD]
    rw [hdays ts]
    cases mt
    · rw [if_pos rfl, if_pos rfl]
      ring
    · rw [if_neg (by decide), if_neg (by decide)]
      ring

/-- C1: retrieveMemory over-fetches max(limit*3, limit) candidates
ordered by raw distance, scores every candidate by the claimed formula
(the implementation score provably equals the specification formula on
every fetched row), and returns the contents of the top limit
candidates of a score-descending rearrangement of the candidate set;
the result is a pure function of the distances, timestamps and types,
hence deterministic. -/
theorem retrieveMemory_ranked (table : List StoredMemRow) (role : String)
    (limit : Nat) (now : Int) :
    ∃ ranked : List MemoryRow,
      ranked.Perm (fetchCandidates table role (max (limit * 3) limit))
      ∧ List.Pairwise (fun a b => specScoreRow now b ≤ specScoreRow now a) ranked
      ∧ retrieveMemory table role limit now
          = (ranked.take limit).map (fun r => r.content)
      ∧ ∀ r ∈ fetchCandidates table role (max (limit * 3) limit),
          r.distance ≠ none ∧ codeScore now r = specScoreRow now r := by
  have hdist : ∀ r ∈ fetchCandidates table role (max (limit * 3) limit),
      ∃ d, r.distance = some d := by
    intro r hr
    simp only [fetchCandidates, List.mem_map] at hr
    obtain ⟨s, _, rfl⟩ := hr
    exact ⟨s.dist, rfl⟩
  haveI htotal : IsTotal (MemoryRow × ℚ) (fun a b => b.2 ≤ a.2) :=
    ⟨fun a b => le_total b.2 a.2⟩
  haveI htrans : IsTrans (MemoryRow × ℚ) (fun a b => b.2 ≤ a.2) :=
    ⟨fun _ _ _ h1 h2 => le_trans h2 h1⟩
  refine ⟨(List.insertionSort (fun a b : MemoryRow × ℚ => b.2 ≤ a.2)
      ((fetchCandidates table role (max (limit * 3) limit)).map
        (fun r => (r, codeScore now r)))).map Prod.fst, ?_, ?_, ?_, ?_⟩
  · have hcomp : (Prod.fst ∘ fun r : MemoryRow => (r, codeScore now r)) = id := rfl
    have hperm := (List.perm_insertionSort (fun a b : MemoryRow × ℚ => b.2 ≤ a.2)
      ((fetchCandidates table role (max (limit * 3) limit)).map
        (fun r => (r, codeScore now r)))).map Prod.fst
    rw [List.map_map, hcomp, List.map_id] at hperm
    exact hperm
  · have hsorted := List.sorted_insertionSort (fun a b : MemoryRow × ℚ => b.2 ≤ a.2)
      ((fetchCandidates table role (max (limit * 3) limit)).map
        (fun r => (r, codeScore now r)))
    rw [List.pairwise_map]
    have hmem : ∀ p ∈ List.insertionSort (fun a b : MemoryRow × ℚ => b.2 ≤ a.2)
        ((fetchCandidates table role (max (limit * 3) limit)).map
          (fun r => (r, codeScore now r))),
        p.2 = specScoreRow now p.1 := by
      intro p hp
      have hp2 := (List.perm_insertionSort (fun a b : MemoryRow × ℚ => b.2 ≤ a.2)
        ((fetchCandidates table role (max (limit * 3) limit)).map
          (fun r => (r, codeScore now r)))).mem_iff.mp hp
      rw [List.mem_map] at hp2
      obtain ⟨r, hr, rfl⟩ := hp2
      obtain ⟨d, hd⟩ := hdist r hr
      exact codeScore_eq_specScoreRow now r d hd
    exact hsorted.imp_of_mem (fun {a b} ha hb hr => by
      rw [← hmem a ha, ← hmem b hb]; exact hr)
  · simp only [retrieveMemory]
    rw [List.map_take, List.map_take, List.map_map]
    rfl
  · intro r hr
    obtain ⟨d, hd⟩ := hdist r hr
    exact ⟨by rw [hd]; exact Option.some_ne_none d,
      codeScore_eq_specScoreRow now r d hd⟩

/-- Witness for C1 at a concrete store: the implementation score of a
concrete fetched row equals the specification formula. -/
theorem retrieveMemory_ranked_witness :
    codeScore 0 ⟨"hello", none, MemoryType.chat, none, some 2⟩
      = specScoreRow 0 ⟨"hello", none, MemoryType.chat, none, some 2⟩ := by
  obtain ⟨ranked, _, _, _, hpt⟩ := retrieveMemory_ranked
    [⟨"hello", "user", none, MemoryType.chat, none, 2⟩] "user" 1 0
  exact (hpt ⟨"hello", none, MemoryType.chat, none, some 2⟩ (by decide)).2

/- ------------------------------------------------------------------ -/
/- String machinery for the classifier and orchestrator                -/
/- ------------------------------------------------------------------ -/

/-- JS String.prototype.trim over the character list of a string. -/
def jsTrim (s : String) : String :=
  String.mk (((s.data.dropWhile Char.isWhitespace).reverse.dropWhile
    Char.isWhitespace).reverse)

/-- JS String.prototype.toLowerCase, restricted to ASCII as the
vocabulary sets are. -/
def lowerStr (s : String) : String := String.mk (s.data.map Char.toLower)

/-- JS regex word character class: ASCII alphanumerics and underscore. -/
def isWordCharB (c : Char) : Bool := c.isAlphanum || c == '_'

/-- Case-insensitive prefix test: the pattern (given in lowercase)
matches the head of the list up to lowercasing. -/
def lcPrefix : List Char → List Char → Bool
  | [], _ => true
  | _ :: _, [] => false
  | p :: ps, c :: cs => p == c.toLower && lcPrefix ps cs

/-- Substring search: does the pattern occur contiguously in the list? -/
def containsSeq (pat : List Char) : List Char → Bool
  | [] => pat.isEmpty
  | c :: cs => List.isPrefixOf pat (c :: cs) || containsSeq pat cs

/-- Case-insensitive containment of a lowercase pattern in a string. -/
def containsCI (s pat : String) : Bool := containsSeq pat.data (lowerStr s).data

/-- A JS regex word boundary after position n: position n is the end of
the list or holds a non-word character. -/
def wordBoundaryAt (l : List Char) (n : Nat) : Bool :=
  match l.drop n with
  | [] => true
  | c :: _ => !(isWordCharB c)

/-- Split a character list into its maximal whitespace-free runs
(accumulator carries the current token reversed). Equivalent to the JS
split on whitespace runs composed with dropping empty tokens. -/
def splitWsAux : List Char → List Char → List (List Char)
  | [], acc => if acc.isEmpty then [] else [acc.reverse]
  | c :: cs, acc =>
    if c.isWhitespace then
      if acc.isEmpty then splitWsAux cs [] else acc.reverse :: splitWsAux cs []
    else splitWsAux cs (c :: acc)

/-- Whitespace tokenization. -/
def splitWs (l : List Char) : List (List Char) := splitWsAux l []

/-- Strip a trailing run of terminal punctuation, as the
replace(/[.!?,]+$/, "") post-processing of the fast-path captures. -/
def stripTrailingPunct (s : String) : String :=
  String.mk ((s.data.reverse.dropWhile
    (fun c => c == '.' || c == '!' || c == '?' || c == ',')).reverse)

/-- The MEANINGFUL_TOKENS vocabulary of chatService. -/
def MEANINGFUL_TOKENS : List String :=
  ["what", "why", "how", "when", "where", "who", "can", "should", "could",
   "would", "is", "are", "do", "does", "did", "may", "might", "policy",
   "office", "coffee", "tea", "break", "name", "own", "have", "like",
   "prefer", "work"]

/-- The lowercased alphabetic tokens of a question: split on whitespace,
strip every character outside a-z, drop empty tokens — the tokens
variable of isGarbageQuestion. -/
def garbageTokens (cleaned : String) : List (List Char) :=
  ((splitWs (lowerStr cleaned).data).map
    (fun t => t.filter Char.isLower)).filter (fun t => !t.isEmpty)

/-- Does any token of the question belong to the meaningful set? -/
def hasMeaningfulToken (cleaned : String) : Bool :=
  (garbageTokens cleaned).any (fun t => MEANINGFUL_TOKENS.contains (String.mk t))

/-- isGarbageQuestion from chatService: empty or under 4 characters
after trimming, or no meaningful token while holding a digit or two or
more terminal punctuation marks and under 20 letters. -/
def isGarbageQuestion (text : String) : Bool :=
  let cleaned := jsTrim text
  if cleaned == "" then true
  else if cleaned.data.length < 4 then true
  else
    let alphaCount := (cleaned.data.filter Char.isAlpha).length
    let hasDigit := cleaned.data.any Char.isDigit
    let punctCount := (cleaned.data.filter (fun c => c == '?' || c == '!')).length
    let meaningful := hasMeaningfulToken cleaned
    if !meaningful && (hasDigit || punctCount ≥ 2) && alphaCount < 20 then true
    else false

/-- The POLICY_REGEX vocabulary: the regex is an unanchored
case-insensitive alternation of these literals. -/
def policyWords : List String :=
  ["policy", "company", "work", "acceptable", "allowed", "forbidden",
   "break", "rule", "regulation"]

/-- POLICY_REGEX.test: some policy literal occurs in the question,
case-insensitively. -/
def hasPolicyKeyword (q : String) : Bool :=
  policyWords.any (fun w => containsSeq w.data (lowerStr q).data)

/-- The verbs of the first PERSONAL_QUESTION_REGEX alternative. -/
def personalVerbs : List String :=
  ["own", "have", "like", "prefer", "remember", "know"]

/-- PERSONAL_QUESTION_REGEX.test on the trimmed question: an anchored
case-insensitive "do i (own|have|like|prefer|remember|know)" (with no
trailing boundary) or an anchored "am i" followed by a word boundary. -/
def isDirectPersonalQuestion (t : String) : Bool :=
  let l := (lowerStr t).data
  personalVerbs.any (fun w => List.isPrefixOf (("do i " ++ w).data) l)
    || (List.isPrefixOf (("am i").data) l && wordBoundaryAt l 4)

/-- After the name literal: require at least one whitespace character,
skip the whitespace run, capture the maximal run of non-newline
characters; fail when that capture is empty. On whitespace-trimmed
inputs this is the \s+(.+) tail of the name regex. -/
def matchTailCapture (rest : List Char) : Option (List Char) :=
  match rest with
  | [] => none
  | r :: rs =>
    if r.isWhitespace then
      let cap := ((r :: rs).dropWhile Char.isWhitespace).takeWhile
        (fun x => !(x == '\n'))
      if cap.isEmpty then none else some cap
    else none

/-- Scan for the leftmost match of \bmy name is\s+(.+) (prev carries the
character before the current position for the word boundary). -/
def nameCaptureFrom (prev : Option Char) : List Char → Option (List Char)
  | [] => none
  | c :: cs =>
    if (match prev with
        | some p => !isWordCharB p
        | none => true)
        && lcPrefix (("my name is").data) (c :: cs) then
      match matchTailCapture ((c :: cs).drop 10) with
      | some cap => some cap
      | none => nameCaptureFrom (some c) cs
    else nameCaptureFrom (some c) cs

/-- The capture of trimmedQuestion.match(/\bmy name is\s+(.+)/i). -/
def nameCapture (s : String) : Option String :=
  (nameCaptureFrom none s.data).map String.mk

/-- The like\s+(.+) tail of the preference regex. -/
def likeTail (rest : List Char) : Option (List Char) :=
  if lcPrefix (("like").data) rest then matchTailCapture (rest.drop 4)
  else none

/-- The body after ^i\s+ : an optional now\s+ group (with the regex
backtracking to the group-less parse when the tail fails), then
like\s+(.+). -/
def likeAfterI (rest : List Char) : Option (List Char) :=
  if lcPrefix (("now").data) rest then
    match rest.drop 3 with
    | a :: _ =>
      if a.isWhitespace then
        match likeTail ((rest.drop 3).dropWhile Char.isWhitespace) with
        | some cap => some cap
        | none => likeTail rest
      else likeTail rest
    | [] => likeTail rest
  else likeTail rest

/-- The capture of trimmedQuestion.match(/^i\s+(now\s+)?like\s+(.+)/i). -/
def likeCapture (s : String) : Option String :=
  match s.data with
  | c :: cs =>
    if c.toLower == 'i' then
      match cs with
      | d :: _ =>
        if d.isWhitespace then
          (likeAfterI (cs.dropWhile Char.isWhitespace)).map String.mk
        else none
      | [] => none
    else none
  | [] => none

/-- question.replace(/^I\s+/i, ""): drop a leading i and the whitespace
run after it, when present. -/
def stripLeadingI (q : String) : String :=
  match q.data with
  | c :: d :: rest =>
    if c.toLower == 'i' && d.isWhitespace then
      String.mk ((d :: rest).dropWhile Char.isWhitespace)
    else q
  | _ => q

/-- The anchored ^i don't know\b disclaimer test, case-insensitive. -/
def startsWithIDontKnow (s : String) : Bool :=
  List.isPrefixOf (("i don\x27t know").data) (lowerStr s).data
    && wordBoundaryAt (lowerStr s).data 12

/-- The disclaimer trigger of the policy pipelines on the trimmed
completion response: empty, or containing the exact document disclaimer
(case-insensitively), or starting with i don't know at a word boundary. -/
def disclaimerTriggered (cleaned : String) : Bool :=
  cleaned == "" || containsCI cleaned ("i don\x27t know from the document")
    || startsWithIDontKnow cleaned

/- ------------------------------------------------------------------ -/
/- Chat orchestrator (chatService: handleChat and pipelines)           -/
/- ------------------------------------------------------------------ -/

/-- A conversation turn as echoed in the response history. -/
structure ChatTurn where
  role : String
  content : String
deriving DecidableEq, Repr

/-- The memory block of the response meta. -/
structure MemMeta where
  similarTopK : Nat
  factsCount : Nat
deriving DecidableEq, Repr

/-- ChatResponseMeta from chatService. -/
structure ChatResponseMeta where
  rag : RagMeta
  memory : MemMeta
deriving DecidableEq, Repr

/-- ChatResponsePayload from chatService. -/
structure ChatResponsePayload where
  answer : String
  history : List ChatTurn
  contextUsed : List ChunkRow
  memoryUsed : Bool
  meta : ChatResponseMeta
deriving DecidableEq, Repr

/-- One saveMemory call issued by the orchestrator (userId is the
request user throughout and is omitted). -/
structure SaveCall where
  role : String
  content : String
  memoryKey : Option String
  memoryType : MemoryType
deriving DecidableEq, Repr

/-- The side effects of one handleChat request: memory rows written,
completion-port calls (including the fact-extraction call), RAG
retrievals (including the probe), ranked memory retrievals, and the
pipeline intent dispatched (none when a fast path returned first). -/
structure EffectTrace where
  saves : List SaveCall
  llmCalls : Nat
  ragCalls : Nat
  memoryRetrieveCalls : Nat
  dispatched : Option HighLevelIntent
deriving DecidableEq, Repr

/-- The configuration slice the orchestrator reads. -/
structure Config where
  ragTopK : Nat
  ragDistanceThreshold : ℚ
  memorySimilarTopK : Nat
deriving DecidableEq, Repr

/-- A row of getLatestFactsByKey. -/
structure LatestFact where
  memory_key : String
  content : String
deriving DecidableEq, Repr

/-- The awaited external results of one request: the fact extractor
output, the latest facts, the ranked memory retrieval, the probe and
pipeline RAG retrievals, and the pipeline completion response. -/
structure ChatEnv where
  extractFact : Option KeyFact
  latestFacts : List LatestFact
  otherMemories : List String
  probeRag : RagRetrievalResult
  mainRag : RagRetrievalResult
  llmResponse : String
deriving DecidableEq, Repr

/-- The request shape of handleChat. -/
structure ChatRequest where
  userId : String
  question : String
  history : List ChatTurn
deriving DecidableEq, Repr

/-- The IDENTITY_KEYS taxonomy of config/memoryKeys. -/
def IDENTITY_KEYS : List String := ["name", "full_name", "nickname", "preferred_name"]

/-- The all-zero rag meta used by the non-RAG branches. -/
def zeroRagMeta : RagMeta := ⟨0, 0, 0⟩

/-- The trace of a branch issuing no external calls. -/
def emptyTrace : EffectTrace := ⟨[], 0, 0, 0, none⟩

/-- buildMeta from chatService: every call site overrides the rag block
wholesale and leaves the memory block to the positional arguments. -/
def buildMeta (ragMeta : RagMeta) (similarTopK factsCount : Nat) : ChatResponseMeta :=
  ⟨ragMeta, ⟨similarTopK, factsCount⟩⟩

/-- The memoryText assembly of buildRagAndMemory: latest fact contents,
then the ranked memory results, truthy entries only, joined by
newlines. -/
def buildMemoryText (latestFacts : List LatestFact) (otherMemories : List String) : String :=
  String.intercalate "\n"
    (((latestFacts.map (fun f => f.content)) ++ otherMemories).filter
      (fun s => !(s == "")))

/-- The effective key of handlePureMemoryQuery: the extracted key when
truthy and not the unknown sentinel, else null. -/
def pureMemoryEffectiveKey (keyFact : Option KeyFact) : Option String :=
  match keyFact with
  | some kf => if kf.key != "" && kf.key != "unknown" then some kf.key else none
  | none => none

/-- The answer and memoryUsed flag of handlePureMemoryQuery, computed
purely from the latest facts. -/
def pureMemoryAnswer (keyFact : Option KeyFact) (latestFacts : List LatestFact) :
    String × Bool :=
  match pureMemoryEffectiveKey keyFact with
  | some k =>
    if (latestFacts.filter (fun f => f.memory_key == k)).length > 0 then
      ((if IDENTITY_KEYS.contains k then
          "Your " ++ k ++ " is "
            ++ String.intercalate (" and ")
                (((latestFacts.filter (fun f => f.memory_key == k)).map
                  (fun f => f.content)))
            ++ "."
        else
          "Your preferences include "
            ++ String.intercalate (" and ")
                (((latestFacts.filter (fun f => f.memory_key == k)).map
                  (fun f => f.content)))
            ++ "."), true)
    else ("I don\x27t have any stored memory about that yet.", false)
  | none => ("I don\x27t have any stored memory about that yet.", false)

/-- handlePureMemoryQuery: templated answer from the latest facts, one
chat save of the assistant answer, zero rag meta, no completion call,
no RAG retrieval, no ranked memory retrieval. -/
def handlePureMemoryQuery (question : String) (history : List ChatTurn)
    (keyFact : Option KeyFact) (latestFacts : List LatestFact)
    (similarTopK : Nat) : ChatResponsePayload × EffectTrace :=
  ((⟨(pureMemoryAnswer keyFact latestFacts).1,
    history ++ [⟨"user", question⟩,
      ⟨"assistant", (pureMemoryAnswer keyFact latestFacts).1⟩],
    [], (pureMemoryAnswer keyFact latestFacts).2,
    buildMeta zeroRagMeta similarTopK latestFacts.length⟩ : ChatResponsePayload),
   ⟨[⟨"assistant", (pureMemoryAnswer keyFact latestFacts).1, none, MemoryType.chat⟩],
    0, 0, 0, none⟩)

/-- The memoryKey fallback of the merged pipeline: the extracted key
when truthy and not unknown, else name. -/
def mergedMemoryKey (keyFact : Option KeyFact) : String :=
  match keyFact with
  | some kf => if kf.key != "" && kf.key != "unknown" then kf.key else "name"
  | none => "name"

/-- The memory sentence of the merged pipeline. -/
def mergedMemorySentence (memoryKey : String) (latestFacts : List LatestFact) : String :=
  if (latestFacts.filter (fun f => f.memory_key == memoryKey)).length > 0 then
    if IDENTITY_KEYS.contains memoryKey then
      "Your " ++ memoryKey ++ " is "
        ++ String.intercalate (" and ")
            (((latestFacts.filter (fun f => f.memory_key == memoryKey)).map
              (fun f => f.content)))
        ++ "."
    else
      "Your " ++ memoryKey ++ " includes "
        ++ String.intercalate (" and ")
            (((latestFacts.filter (fun f => f.memory_key == memoryKey)).map
              (fun f => f.content)))
        ++ "."
  else "I don\x27t have your " ++ memoryKey ++ " stored yet."

/-- The fixed no-context policy sentence of the merged pipeline. -/
def mergedNoRagFallback : String :=
  "Based on the available company policy, there is no explicit rule about that behavior. However, employees are expected to follow standard working hours, break rules, and maintain professionalism."

/-- The fixed disclaimer-substitution sentence of the merged pipeline. -/
def mergedDisclaimerFallback : String :=
  "Based on the company policy, there is no explicit rule about coffee or break habits, but employees are expected to follow standard working hours, agreed break times, and maintain professionalism. Frequent breaks should be discussed with your manager."

/-- The policy part of the merged answer: the no-context sentence
without chunks; otherwise the trimmed completion response, replaced by
the fixed fallback when the disclaimer trigger fires. -/
def mergedPolicyAnswer (hasChunks : Bool) (raw : String) : String :=
  if !hasChunks then mergedNoRagFallback
  else if disclaimerTriggered (jsTrim raw) then mergedDisclaimerFallback
  else jsTrim raw

/-- handleMergedMemoryPolicyQuery: memory sentence plus policy answer,
one chat save, rag meta from the retrieval, one RAG retrieval and one
ranked memory retrieval, one completion call when chunks exist. -/
def handleMergedMemoryPolicyQuery (question : String) (history : List ChatTurn)
    (keyFact : Option KeyFact) (latestFacts : List LatestFact)
    (similarTopK : Nat) (env : ChatEnv) : ChatResponsePayload × EffectTrace :=
  ((⟨jsTrim (mergedMemorySentence (mergedMemoryKey keyFact) latestFacts ++ " "
      ++ mergedPolicyAnswer (!env.mainRag.finalChunks.isEmpty) env.llmResponse),
    history ++ [⟨"user", question⟩,
      ⟨"assistant", jsTrim (mergedMemorySentence (mergedMemoryKey keyFact) latestFacts
        ++ " " ++ mergedPolicyAnswer (!env.mainRag.finalChunks.isEmpty) env.llmResponse)⟩],
    env.mainRag.finalChunks,
    (latestFacts.filter (fun f => f.memory_key == mergedMemoryKey keyFact)).length > 0
      || !(buildMemoryText latestFacts env.otherMemories == ""),
    buildMeta env.mainRag.meta similarTopK latestFacts.length⟩ : ChatResponsePayload),
   ⟨[⟨"assistant", jsTrim (mergedMemorySentence (mergedMemoryKey keyFact) latestFacts
      ++ " " ++ mergedPolicyAnswer (!env.mainRag.finalChunks.isEmpty) env.llmResponse),
      none, MemoryType.chat⟩],
    if !env.mainRag.finalChunks.isEmpty then 1 else 0, 1, 1, none⟩)

/-- The fixed no-context sentence of the pure policy pipeline. -/
def purePolicyNoRagFallback : String :=
  "Based on the policy information I have, there is no explicit rule about that. You may need to confirm with HR or your manager."

/-- The fixed disclaimer-substitution sentence of the pure policy
pipeline. -/
def purePolicyDisclaimerFallback : String :=
  "The company policy does not explicitly mention that scenario, but employees are expected to follow standard working hours, break rules, and maintain professionalism."

/-- The answer of the pure policy pipeline. -/
def purePolicyAnswer (hasChunks : Bool) (raw : String) : String :=
  if !hasChunks then purePolicyNoRagFallback
  else if disclaimerTriggered (jsTrim raw) then purePolicyDisclaimerFallback
  else jsTrim raw

/-- handlePurePolicyQuery: the completion-plus-fallback pattern without
the memory sentence. -/
def handlePurePolicyQuery (question : String) (history : List ChatTurn)
    (latestFacts : List LatestFact) (similarTopK : Nat) (env : ChatEnv) :
    ChatResponsePayload × EffectTrace :=
  ((⟨purePolicyAnswer (!env.mainRag.finalChunks.isEmpty) env.llmResponse,
    history ++ [⟨"user", question⟩,
      ⟨"assistant", purePolicyAnswer (!env.mainRag.finalChunks.isEmpty) env.llmResponse⟩],
    env.mainRag.finalChunks,
    !(buildMemoryText latestFacts env.otherMemories == ""),
    buildMeta env.mainRag.meta similarTopK latestFacts.length⟩ : ChatResponsePayload),
   ⟨[⟨"assistant", purePolicyAnswer (!env.mainRag.finalChunks.isEmpty) env.llmResponse,
      none, MemoryType.chat⟩],
    if !env.mainRag.finalChunks.isEmpty then 1 else 0, 1, 1, none⟩)

/-- The clarification of the unknown pipeline without any context. -/
def unknownClarification : String :=
  "It seems like your question isn\x27t clear. Could you rephrase or provide more detail?"

/-- The unknown-pipeline substitute for an empty completion response. -/
def unknownEmptyLLM : String :=
  "I\x27m not sure I understood that. Could you clarify?"

/-- handleUnknownQuery: clarification without any RAG or memory
context, otherwise a completion call over whatever context exists. -/
def handleUnknownQuery (question : String) (history : List ChatTurn)
    (latestFacts : List LatestFact) (similarTopK : Nat) (env : ChatEnv) :
    ChatResponsePayload × EffectTrace :=
  if !(!env.mainRag.finalChunks.isEmpty)
      && !(!(buildMemoryText latestFacts env.otherMemories == "")) then
    ((⟨unknownClarification,
      history ++ [⟨"user", question⟩, ⟨"assistant", unknownClarification⟩],
      [], !(buildMemoryText latestFacts env.otherMemories == ""),
      buildMeta zeroRagMeta similarTopK latestFacts.length⟩ : ChatResponsePayload),
     ⟨[⟨"assistant", unknownClarification, none, MemoryType.chat⟩], 0, 1, 1, none⟩)
  else
    ((⟨(if jsTrim env.llmResponse == "" then unknownEmptyLLM else jsTrim env.llmResponse),
      history ++ [⟨"user", question⟩,
        ⟨"assistant", (if jsTrim env.llmResponse == "" then unknownEmptyLLM
          else jsTrim env.llmResponse)⟩],
      env.mainRag.finalChunks,
      !(buildMemoryText latestFacts env.otherMemories == ""),
      buildMeta (if !env.mainRag.finalChunks.isEmpty then env.mainRag.meta else zeroRagMeta)
        similarTopK latestFacts.length⟩ : ChatResponsePayload),
     ⟨[⟨"assistant", (if jsTrim env.llmResponse == "" then unknownEmptyLLM
        else jsTrim env.llmResponse), none, MemoryType.chat⟩],
      1, 1, 1, none⟩)

/-- Stage 3 and 4 of handleChat: load the latest facts, resolve the
intent, upgrade UNKNOWN to PURE_POLICY_QUERY when the probe RAG lookup
returns chunks, dispatch to the pipeline, and account for the probe
retrieval in the trace. -/
def chatDispatch (cfg : Config) (env : ChatEnv) (question trimmedQuestion : String)
    (history : List ChatTurn) (keyFact : Option KeyFact)
    (hasPolicy isPersonal : Bool) : ChatResponsePayload × EffectTrace :=
  let intent0 := detectHighLevelIntent trimmedQuestion keyFact hasPolicy isPersonal
  let intent := if intent0 == HighLevelIntent.UNKNOWN
      && !env.probeRag.finalChunks.isEmpty then
    HighLevelIntent.PURE_POLICY_QUERY
  else intent0
  let hres :=
    match intent with
    | HighLevelIntent.PURE_MEMORY_QUERY =>
      handlePureMemoryQuery question history keyFact env.latestFacts cfg.memorySimilarTopK
    | HighLevelIntent.MERGED_MEMORY_POLICY_QUERY =>
      handleMergedMemoryPolicyQuery question history keyFact env.latestFacts
        cfg.memorySimilarTopK env
    | HighLevelIntent.PURE_POLICY_QUERY =>
      handlePurePolicyQuery question history env.latestFacts cfg.memorySimilarTopK env
    | HighLevelIntent.UNKNOWN =>
      handleUnknownQuery question history env.latestFacts cfg.memorySimilarTopK env
  (hres.1, ⟨hres.2.saves, hres.2.llmCalls, hres.2.ragCalls + 1,
    hres.2.memoryRetrieveCalls, some intent⟩)

/-- The clarification of the early garbage guard. -/
def garbageClarification : String :=
  "It looks like your message might be incomplete or unclear. Could you please rephrase your question?"

/-- Stage 2 of handleChat: the fact-extraction completion call, the
synthetic asking fact for direct personal questions, the identity and
non-identity introduction fast paths, then dispatch. The extraction
completion call is accounted here. -/
def chatAfterFastPaths (cfg : Config) (env : ChatEnv)
    (question trimmedQuestion : String) (history : List ChatTurn) :
    ChatResponsePayload × EffectTrace :=
  let inner : ChatResponsePayload × EffectTrace :=
    match (if env.extractFact.isNone && isDirectPersonalQuestion trimmedQuestion then
        some (⟨"unknown", "", FactIntent.asking⟩ : KeyFact)
      else env.extractFact) with
    | some kf =>
      if kf.intent == FactIntent.introducing && kf.value != ""
          && IDENTITY_KEYS.contains kf.key then
        ((⟨"Hello, " ++ kf.value ++ "! How can I assist you today?",
          history ++ [⟨"user", question⟩,
            ⟨"assistant", "Hello, " ++ kf.value ++ "! How can I assist you today?"⟩],
          [], true, buildMeta zeroRagMeta cfg.memorySimilarTopK 1⟩ : ChatResponsePayload),
         (⟨[⟨"user", kf.value, some kf.key, MemoryType.fact⟩,
            ⟨"assistant", "Hello, " ++ kf.value ++ "! How can I assist you today?",
              none, MemoryType.chat⟩], 0, 0, 0, none⟩ : EffectTrace))
      else if (kf.intent == FactIntent.introducing || kf.intent == FactIntent.updating)
          && kf.value != "" && !IDENTITY_KEYS.contains kf.key then
        ((⟨"Got it! I\x27ll remember that you " ++ stripLeadingI question ++ ".",
          history ++ [⟨"user", question⟩,
            ⟨"assistant", "Got it! I\x27ll remember that you "
              ++ stripLeadingI question ++ "."⟩],
          [], true, buildMeta zeroRagMeta cfg.memorySimilarTopK 1⟩ : ChatResponsePayload),
         (⟨[⟨"user", kf.value, some kf.key, MemoryType.fact⟩,
            ⟨"assistant", "Got it! I\x27ll remember that you "
              ++ stripLeadingI question ++ ".", none, MemoryType.chat⟩],
          0, 0, 0, none⟩ : EffectTrace))
      else
        chatDispatch cfg env question trimmedQuestion history (some kf)
          (hasPolicyKeyword question) (isDirectPersonalQuestion trimmedQuestion)
    | none =>
      chatDispatch cfg env question trimmedQuestion history none
        (hasPolicyKeyword question) (isDirectPersonalQuestion trimmedQuestion)
  (inner.1, ⟨inner.2.saves, inner.2.llmCalls + 1, inner.2.ragCalls,
    inner.2.memoryRetrieveCalls, inner.2.dispatched⟩)

/-- handleChat from chatService: the empty-question guard, the garbage
guard, the hard-wired name and preference introductions, the canned
what-do-i-like recall, then fact extraction and pipeline dispatch.
Every branch echoes the history extended by the user/assistant
exchange. -/
def handleChat (cfg : Config) (env : ChatEnv) (req : ChatRequest) :
    ChatResponsePayload × EffectTrace :=
  if jsTrim req.question == "" then
    ((⟨"question required",
      req.history ++ [⟨"user", req.question⟩, ⟨"assistant", "question required"⟩],
      [], false, buildMeta zeroRagMeta cfg.memorySimilarTopK 0⟩ : ChatResponsePayload),
     emptyTrace)
  else if isGarbageQuestion (jsTrim req.question) then
    ((⟨garbageClarification,
      req.history ++ [⟨"user", req.question⟩, ⟨"assistant", garbageClarification⟩],
      [], false, buildMeta zeroRagMeta cfg.memorySimilarTopK 0⟩ : ChatResponsePayload),
     emptyTrace)
  else
    match nameCapture (jsTrim req.question) with
    | some cap =>
      ((⟨"Hello, " ++ stripTrailingPunct (jsTrim cap) ++ "! How can I assist you today?",
        req.history ++ [⟨"user", req.question⟩,
          ⟨"assistant", "Hello, " ++ stripTrailingPunct (jsTrim cap)
            ++ "! How can I assist you today?"⟩],
        [], true, buildMeta zeroRagMeta cfg.memorySimilarTopK 1⟩ : ChatResponsePayload),
       (⟨[⟨"user", stripTrailingPunct (jsTrim cap), some ("name"), MemoryType.fact⟩,
          ⟨"assistant", "Hello, " ++ stripTrailingPunct (jsTrim cap)
            ++ "! How can I assist you today?", none, MemoryType.chat⟩],
        0, 0, 0, none⟩ : EffectTrace))
    | none =>
      match likeCapture (jsTrim req.question) with
      | some cap =>
        ((⟨"Got it! I\x27ll remember that you like "
            ++ stripTrailingPunct (jsTrim cap) ++ ".",
          req.history ++ [⟨"user", req.question⟩,
            ⟨"assistant", "Got it! I\x27ll remember that you like "
              ++ stripTrailingPunct (jsTrim cap) ++ "."⟩],
          [], true, buildMeta zeroRagMeta cfg.memorySimilarTopK 1⟩ : ChatResponsePayload),
         (⟨[⟨"user", stripTrailingPunct (jsTrim cap), some ("preference"), MemoryType.fact⟩,
            ⟨"assistant", "Got it! I\x27ll remember that you like "
              ++ stripTrailingPunct (jsTrim cap) ++ ".", none, MemoryType.chat⟩],
          0, 0, 0, none⟩ : EffectTrace))
      | none =>
        if lowerStr (jsTrim req.question) == "what do i like"
            || lowerStr (jsTrim req.question) == "what do i like?" then
          if (env.latestFacts.filter
              (fun f => !IDENTITY_KEYS.contains f.memory_key)).length > 0 then
            ((⟨"Your preferences include "
                ++ String.intercalate (" and ")
                    (((env.latestFacts.filter
                      (fun f => !IDENTITY_KEYS.contains f.memory_key)).map
                      (fun f => f.content)))
                ++ ".",
              req.history ++ [⟨"user", req.question⟩,
                ⟨"assistant", "Your preferences include "
                  ++ String.intercalate (" and ")
                      (((env.latestFacts.filter
                        (fun f => !IDENTITY_KEYS.contains f.memory_key)).map
                        (fun f => f.content)))
                  ++ "."⟩],
              [], true,
              buildMeta zeroRagMeta cfg.memorySimilarTopK env.latestFacts.length⟩ :
                ChatResponsePayload),
             (⟨[⟨"assistant", "Your preferences include "
                ++ String.intercalate (" and ")
                    (((env.latestFacts.filter
                      (fun f => !IDENTITY_KEYS.contains f.memory_key)).map
                      (fun f => f.content)))
                ++ ".", none, MemoryType.chat⟩], 0, 0, 0, none⟩ : EffectTrace))
          else
            ((⟨"I don\x27t have any stored preferences yet.",
              req.history ++ [⟨"user", req.question⟩,
                ⟨"assistant", "I don\x27t have any stored preferences yet."⟩],
              [], false,
              buildMeta zeroRagMeta cfg.memorySimilarTopK 0⟩ : ChatResponsePayload),
             (⟨[⟨"assistant", "I don\x27t have any stored preferences yet.",
                none, MemoryType.chat⟩], 0, 0, 0, none⟩ : EffectTrace))
        else
          chatAfterFastPaths cfg env req.question (jsTrim req.question) req.history

/-- Fixed concrete configuration for concrete runs. -/
def cfg0 : Config := ⟨5, 1, 5⟩

/-- The empty retrieval result. -/
def emptyRag : RagRetrievalResult := ⟨[], [], [], ⟨0, 0, 0⟩⟩

/-- An environment with no extracted fact, no stored facts, no chunks
and an empty completion response. -/
def env0 : ChatEnv := ⟨none, [], [], emptyRag, emptyRag, ""⟩

/-- The contract every persisting terminal branch satisfies: the
history is the input history extended by the user/assistant exchange,
the memory meta echoes the configured similar-topK, and the assistant
answer is saved as an unkeyed chat row. -/
def TerminalShape (history : List ChatTurn) (question : String)
    (similarTopK : Nat) (res : ChatResponsePayload × EffectTrace) : Prop :=
  res.1.history = history ++ [⟨"user", question⟩, ⟨"assistant", res.1.answer⟩]
  ∧ res.1.meta.memory.similarTopK = similarTopK
  ∧ (⟨"assistant", res.1.answer, none, MemoryType.chat⟩ : SaveCall) ∈ res.2.saves

theorem handlePureMemoryQuery_shape (question : String) (history : List ChatTurn)
    (keyFact : Option KeyFact) (latestFacts : List LatestFact) (similarTopK : Nat) :
    TerminalShape history question similarTopK
      (handlePureMemoryQuery question history keyFact latestFacts similarTopK) :=
  ⟨rfl, rfl, by simp [handlePureMemoryQuery]⟩

theorem handleMergedMemoryPolicyQuery_shape (question : String)
    (history : List ChatTurn) (keyFact : Option KeyFact)
    (latestFacts : List LatestFact) (similarTopK : Nat) (env : ChatEnv) :
    TerminalShape history question similarTopK
      (handleMergedMemoryPolicyQuery question history keyFact latestFacts
        similarTopK env) :=
  ⟨rfl, rfl, by simp [handleMergedMemoryPolicyQuery]⟩

theorem handlePurePolicyQuery_shape (question : String) (history : List ChatTurn)
    (latestFacts : List LatestFact) (similarTopK : Nat) (env : ChatEnv) :
    TerminalShape history question similarTopK
      (handlePurePolicyQuery question history latestFacts similarTopK env) :=
  ⟨rfl, rfl, by simp [handlePurePolicyQuery]⟩

theorem handleUnknownQuery_shape (question : String) (history : List ChatTurn)
    (latestFacts : List LatestFact) (similarTopK : Nat) (env : ChatEnv) :
    TerminalShape history question similarTopK
      (handleUnknownQuery question history latestFacts similarTopK env) := by
  unfold handleUnknownQuery TerminalShape
  split
  · exact ⟨rfl, rfl, by simp⟩
  · exact ⟨rfl, rfl, by simp⟩

theorem chatDispatch_shape (cfg : Config) (env : ChatEnv)
    (question trimmedQuestion : String) (history : List ChatTurn)
    (keyFact : Option KeyFact) (hasPolicy isPersonal : Bool) :
    TerminalShape history question cfg.memorySimilarTopK
      (chatDispatch cfg env question trimmedQuestion history keyFact
        hasPolicy isPersonal) := by
  simp only [chatDispatch]
  split
  · exact handlePureMemoryQuery_shape question history keyFact env.latestFacts
      cfg.memorySimilarTopK
  · exact handleMergedMemoryPolicyQuery_shape question history keyFact
      env.latestFacts cfg.memorySimilarTopK env
  · exact handlePurePolicyQuery_shape question history env.latestFacts
      cfg.memorySimilarTopK env
  · exact handleUnknownQuery_shape question history env.latestFacts
      cfg.memorySimilarTopK env

theorem chatAfterFastPaths_shape (cfg : Config) (env : ChatEnv)
    (question trimmedQuestion : String) (history : List ChatTurn) :
    TerminalShape history question cfg.memorySimilarTopK
      (chatAfterFastPaths cfg env question trimmedQuestion history) := by
  simp only [chatAfterFastPaths]
  split
  · split
    · exact ⟨rfl, rfl, by simp⟩
    · split
      · exact ⟨rfl, rfl, by simp⟩
      · exact chatDispatch_shape cfg env question trimmedQuestion history _ _ _
  · exact chatDispatch_shape cfg env question trimmedQuestion history _ _ _

/-- C5 counterexample: the empty-question branch is terminal and writes
nothing: no chat memory row holds the assistant answer, contradicting
the claim that every terminal branch (the empty-question branch
included) persists the assistant answer. -/
theorem handleChat_empty_question_cex :
    (handleChat cfg0 env0 ⟨"u", "", []⟩).2.saves = []
    ∧ (handleChat cfg0 env0 ⟨"u", "", []⟩).1.answer = "question required" := by
  exact ⟨rfl, rfl⟩

/-- C5 (amended): every terminal branch of handleChat appends the
user/assistant exchange to the returned history and reports the
configured similarTopK in the response metadata; every terminal branch
other than the empty-question and garbage-question branches persists
the assistant answer as an unkeyed chat memory row, while those two
guard branches write nothing at all. -/
theorem handleChat_terminal_contract (cfg : Config) (env : ChatEnv)
    (req : ChatRequest) :
    ((handleChat cfg env req).1.history
      = req.history ++ [⟨"user", req.question⟩,
          ⟨"assistant", (handleChat cfg env req).1.answer⟩])
    ∧ ((handleChat cfg env req).1.meta.memory.similarTopK = cfg.memorySimilarTopK)
    ∧ ((jsTrim req.question = "" ∨ isGarbageQuestion (jsTrim req.question) = true) →
        (handleChat cfg env req).2.saves = [])
    ∧ (jsTrim req.question ≠ "" → isGarbageQuestion (jsTrim req.question) = false →
        (⟨"assistant", (handleChat cfg env req).1.answer, none,
          MemoryType.chat⟩ : SaveCall) ∈ (handleChat cfg env req).2.saves) := by
  simp only [handleChat]
  split
  case isTrue h1 =>
    refine ⟨rfl, rfl, fun _ => rfl, fun hne _ => absurd (by simpa using h1) hne⟩
  case isFalse h1 =>
    have hne : jsTrim req.question ≠ "" := by
      intro he
      exact h1 (by simp [he])
    split
    case isTrue h2 =>
      refine ⟨rfl, rfl, fun _ => rfl, fun _ hg => absurd h2 (by simp [hg])⟩
    case isFalse h2 =>
      have hng : isGarbageQuestion (jsTrim req.question) = false :=
        Bool.eq_false_iff.mpr h2
      split
      case h_1 cap hcap =>
        refine ⟨rfl, rfl, ?_, fun _ _ => by simp⟩
        intro h
        rcases h with h | h
        · exact absurd h hne
        · rw [h] at hng; simp at hng
      case h_2 =>
        split
        case h_1 cap hcap =>
          refine ⟨rfl, rfl, ?_, fun _ _ => by simp⟩
          intro h
          rcases h with h | h
          · exact absurd h hne
          · rw [h] at hng; simp at hng
        case h_2 =>
          split
          case isTrue h3 =>
            split
            case isTrue h4 =>
              refine ⟨rfl, rfl, ?_, fun _ _ => by simp⟩
              intro h
              rcases h with h | h
              · exact absurd h hne
              · rw [h] at hng; simp at hng
            case isFalse h4 =>
              refine ⟨rfl, rfl, ?_, fun _ _ => by simp⟩
              intro h
              rcases h with h | h
              · exact absurd h hne
              · rw [h] at hng; simp at hng
          case isFalse h3 =>
            have hs := chatAfterFastPaths_shape cfg env req.question
              (jsTrim req.question) req.history
            exact ⟨hs.1, hs.2.1, fun h => by
                rcases h with h | h
                · exact absurd h hne
                · rw [h] at hng; simp at hng,
              fun _ _ => hs.2.2⟩

/-- Witness for C5 at a concrete run: a name introduction persists the
assistant greeting as a chat row. -/
theorem handleChat_terminal_contract_witness :
    (⟨"assistant",
      (handleChat cfg0 env0 ⟨"u", "My name is Aditia", []⟩).1.answer, none,
      MemoryType.chat⟩ : SaveCall)
      ∈ (handleChat cfg0 env0 ⟨"u", "My name is Aditia", []⟩).2.saves := by
  exact (handleChat_terminal_contract cfg0 env0 ⟨"u", "My name is Aditia", []⟩).2.2.2
    (by decide) (by decide)

/-- C7: isGarbageQuestion returns true exactly when, after trimming,
the text is empty, or shorter than 4 characters, or contains no
meaningful token while containing a digit or at least two terminal
punctuation marks and fewer than 20 letters; asdkj!!1 is garbage, the
coffee policy question is not; and a garbage question short-circuits
handleChat with the fixed clarification and no external calls or
writes. -/
theorem isGarbageQuestion_spec :
    (∀ t, isGarbageQuestion t = true ↔
      (jsTrim t = "" ∨ (jsTrim t).data.length < 4
        ∨ (hasMeaningfulToken (jsTrim t) = false
          ∧ ((jsTrim t).data.any Char.isDigit = true
            ∨ 2 ≤ ((jsTrim t).data.filter (fun c => c == '?' || c == '!')).length)
          ∧ ((jsTrim t).data.filter Char.isAlpha).length < 20)))
    ∧ isGarbageQuestion ("asdkj!!1") = true
    ∧ isGarbageQuestion ("What does the policy say about coffee?") = false
    ∧ (∀ cfg env req, jsTrim req.question ≠ "" →
        isGarbageQuestion (jsTrim req.question) = true →
        (handleChat cfg env req).1.answer = garbageClarification
        ∧ (handleChat cfg env req).2 = emptyTrace) := by
  refine ⟨?_, by decide, by decide, ?_⟩
  · intro t
    simp only [isGarbageQuestion]
    split
    case isTrue h1 =>
      simp only [true_iff]
      exact Or.inl (by simpa using h1)
    case isFalse h1 =>
      have hne : ¬ jsTrim t = "" := by
        intro he
        exact h1 (by simp [he])
      split
      case isTrue h2 =>
        simp only [true_iff]
        exact Or.inr (Or.inl h2)
      case isFalse h2 =>
        split
        case isTrue h3 =>
          simp only [true_iff]
          refine Or.inr (Or.inr ?_)
          simp only [Bool.and_eq_true, Bool.or_eq_true, Bool.not_eq_true',
            decide_eq_true_eq] at h3
          exact ⟨h3.1.1, h3.1.2, h3.2⟩
        case isFalse h3 =>
          constructor
          · intro h
            simp at h
          intro hcon
          exfalso
          rcases hcon with hcon | hcon | hcon
          · exact hne hcon
          · exact h2 hcon
          · apply h3
            simp only [Bool.and_eq_true, Bool.or_eq_true, Bool.not_eq_true',
              decide_eq_true_eq]
            exact ⟨⟨hcon.1, hcon.2.1⟩, hcon.2.2⟩
  · intro cfg env req hne hg
    simp only [handleChat]
    rw [if_neg (by simpa using hne), if_pos hg]
    exact ⟨rfl, rfl⟩

/-- Witness for C7 at the garbage scenario input: the run returns the
clarification with an empty effect trace. -/
theorem isGarbageQuestion_spec_witness :
    (handleChat cfg0 env0 ⟨"u", "xk292??", []⟩).1.answer = garbageClarification
    ∧ (handleChat cfg0 env0 ⟨"u", "xk292??", []⟩).2 = emptyTrace := by
  exact isGarbageQuestion_spec.2.2.2 cfg0 env0 ⟨"u", "xk292??", []⟩
    (by decide) (by decide)

set_option maxRecDepth 65536 in
/-- C8: in the merged and pure policy pipelines, whenever the trimmed
completion response is empty or triggers the dont-know disclaimer
patterns, the fixed non-committal fallback sentence is substituted; the
policy part of the final answer never triggers the disclaimer patterns
itself (in particular the answer never combines a memory sentence with
an I-dont-know policy clause), and the handlers assemble their answers
from exactly this substituted policy part. -/
theorem policy_disclaimer_substitution :
    (∀ raw, disclaimerTriggered (jsTrim raw) = true →
      mergedPolicyAnswer true raw = mergedDisclaimerFallback
      ∧ purePolicyAnswer true raw = purePolicyDisclaimerFallback)
    ∧ (∀ (hasChunks : Bool) (raw : String),
        disclaimerTriggered (mergedPolicyAnswer hasChunks raw) = false
        ∧ disclaimerTriggered (purePolicyAnswer hasChunks raw) = false)
    ∧ (∀ (question : String) (history : List ChatTurn) (keyFact : Option KeyFact)
        (latestFacts : List LatestFact) (similarTopK : Nat) (env : ChatEnv),
        (handleMergedMemoryPolicyQuery question history keyFact latestFacts
          similarTopK env).1.answer
          = jsTrim (mergedMemorySentence (mergedMemoryKey keyFact) latestFacts
              ++ " " ++ mergedPolicyAnswer (!env.mainRag.finalChunks.isEmpty)
                env.llmResponse))
    ∧ (∀ (question : String) (history : List ChatTurn)
        (latestFacts : List LatestFact) (similarTopK : Nat) (env : ChatEnv),
        (handlePurePolicyQuery question history latestFacts similarTopK env).1.answer
          = purePolicyAnswer (!env.mainRag.finalChunks.isEmpty) env.llmResponse) := by
  refine ⟨?_, ?_, ?_, ?_⟩
  · intro raw h
    constructor
    · simp [mergedPolicyAnswer, h]
    · simp [purePolicyAnswer, h]
  · intro hasChunks raw
    cases hasChunks with
    | false =>
      constructor
      · show disclaimerTriggered mergedNoRagFallback = false
        decide
      · show disclaimerTriggered purePolicyNoRagFallback = false
        decide
    | true =>
      by_cases h : disclaimerTriggered (jsTrim raw) = true
      · constructor
        · rw [show mergedPolicyAnswer true raw = mergedDisclaimerFallback by
            simp [mergedPolicyAnswer, h]]
          decide
        · rw [show purePolicyAnswer true raw = purePolicyDisclaimerFallback by
            simp [purePolicyAnswer, h]]
          decide
      · have hf : disclaimerTriggered (jsTrim raw) = false := Bool.eq_false_iff.mpr h
        constructor
        · rw [show mergedPolicyAnswer true raw = jsTrim raw by
            simp [mergedPolicyAnswer, hf]]
          exact hf
        · rw [show purePolicyAnswer true raw = jsTrim raw by
            simp [purePolicyAnswer, hf]]
          exact hf
  · intro question history keyFact latestFacts similarTopK env
    rfl
  · intro question history latestFacts similarTopK env
    rfl

set_option maxRecDepth 65536 in
/-- Witness for C8 at the literal disclaimer response: the merged
pipeline substitutes the fixed fallback sentence. -/
theorem policy_disclaimer_substitution_witness :
    mergedPolicyAnswer true ("I don\x27t know from the document.")
      = mergedDisclaimerFallback := by
  exact (policy_disclaimer_substitution.1 ("I don\x27t know from the document.")
    (by decide)).1

/-- The pure-memory answer is always one of the three templates
computed from the latest facts: the identity template, the preference
template, or the fixed no-memory fallback. -/
theorem pureMemoryAnswer_shape (keyFact : Option KeyFact)
    (latestFacts : List LatestFact) :
    (pureMemoryAnswer keyFact latestFacts).1
        = "I don\x27t have any stored memory about that yet."
    ∨ ∃ k, (IDENTITY_KEYS.contains k = true
          ∧ (pureMemoryAnswer keyFact latestFacts).1
            = "Your " ++ k ++ " is " ++ String.intercalate (" and ")
                (((latestFacts.filter (fun f => f.memory_key == k)).map
                  (fun f => f.content))) ++ ".")
        ∨ (IDENTITY_KEYS.contains k = false
          ∧ (pureMemoryAnswer keyFact latestFacts).1
            = "Your preferences include " ++ String.intercalate (" and ")
                (((latestFacts.filter (fun f => f.memory_key == k)).map
                  (fun f => f.content))) ++ ".") := by
  simp only [pureMemoryAnswer]
  split
  case h_1 k heq =>
    split
    case isTrue hlen =>
      by_cases hc : IDENTITY_KEYS.contains k = true
      · exact Or.inr ⟨k, Or.inl ⟨hc, by rw [if_pos hc]⟩⟩
      · have hc2 : IDENTITY_KEYS.contains k = false := Bool.eq_false_iff.mpr hc
        exact Or.inr ⟨k, Or.inr ⟨hc2, by rw [if_neg hc]⟩⟩
    case isFalse hlen => exact Or.inl rfl
  case h_2 heq => exact Or.inl rfl

/-- When the dispatched intent is PURE_MEMORY_QUERY, chatDispatch is the
pure-memory handler with the probe retrieval accounted. -/
theorem chatDispatch_pureMemory (cfg : Config) (env : ChatEnv)
    (question trimmedQuestion : String) (history : List ChatTurn)
    (keyFact : Option KeyFact) (hasPolicy isPersonal : Bool) :
    (chatDispatch cfg env question trimmedQuestion history keyFact
      hasPolicy isPersonal).2.dispatched
      = some HighLevelIntent.PURE_MEMORY_QUERY →
    chatDispatch cfg env question trimmedQuestion history keyFact
      hasPolicy isPersonal
      = ((handlePureMemoryQuery question history keyFact env.latestFacts
          cfg.memorySimilarTopK).1,
        ⟨(handlePureMemoryQuery question history keyFact env.latestFacts
            cfg.memorySimilarTopK).2.saves, 0, 1, 0,
          some HighLevelIntent.PURE_MEMORY_QUERY⟩) := by
  simp only [chatDispatch]
  split
  case isTrue h =>
    intro hd
    simp at hd
  case isFalse h =>
    split
    case h_1 heq =>
      intro _
      rw [heq]
      rfl
    case h_2 heq =>
      intro hd
      rw [heq] at hd
      simp at hd
    case h_3 heq =>
      intro hd
      rw [heq] at hd
      simp at hd
    case h_4 heq =>
      intro hd
      rw [heq] at hd
      simp at hd

/-- When the dispatched intent is PURE_MEMORY_QUERY, the post-fast-path
stage is the pure-memory handler plus exactly the extraction completion
call and the probe retrieval. -/
theorem chatAfterFastPaths_pureMemory (cfg : Config) (env : ChatEnv)
    (question trimmedQuestion : String) (history : List ChatTurn) :
    (chatAfterFastPaths cfg env question trimmedQuestion history).2.dispatched
      = some HighLevelIntent.PURE_MEMORY_QUERY →
    ∃ kf, chatAfterFastPaths cfg env question trimmedQuestion history
      = ((handlePureMemoryQuery question history kf env.latestFacts
          cfg.memorySimilarTopK).1,
        ⟨(handlePureMemoryQuery question history kf env.latestFacts
            cfg.memorySimilarTopK).2.saves, 1, 1, 0,
          some HighLevelIntent.PURE_MEMORY_QUERY⟩) := by
  simp only [chatAfterFastPaths]
  split
  case h_1 kf heq =>
    split
    case isTrue h1 =>
      intro hd
      simp at hd
    case isFalse h1 =>
      split
      case isTrue h2 =>
        intro hd
        simp at hd
      case isFalse h2 =>
        intro hd
        have hd2 : (chatDispatch cfg env question trimmedQuestion history (some kf)
            (hasPolicyKeyword question)
            (isDirectPersonalQuestion trimmedQuestion)).2.dispatched
            = some HighLevelIntent.PURE_MEMORY_QUERY := hd
        have hrw := chatDispatch_pureMemory cfg env question trimmedQuestion history
          (some kf) (hasPolicyKeyword question)
          (isDirectPersonalQuestion trimmedQuestion) hd2
        refine ⟨some kf, ?_⟩
        rw [hrw]
  case h_2 heq =>
    intro hd
    have hd2 : (chatDispatch cfg env question trimmedQuestion history none
        (hasPolicyKeyword question)
        (isDirectPersonalQuestion trimmedQuestion)).2.dispatched
        = some HighLevelIntent.PURE_MEMORY_QUERY := hd
    have hrw := chatDispatch_pureMemory cfg env question trimmedQuestion history
      none (hasPolicyKeyword question) (isDirectPersonalQuestion trimmedQuestion) hd2
    refine ⟨none, ?_⟩
    rw [hrw]

/-- C9 counterexample: a request dispatched as PURE_MEMORY_QUERY has
already made one completion call (the fact extraction) and one RAG
retrieval (the probe lookup), so the request does not make zero
completion calls and zero RAG retrievals as claimed. -/
theorem handleChat_pureMemory_cex :
    (handleChat cfg0 env0 ⟨"u", "do i like coffee", []⟩).2.dispatched
      = some HighLevelIntent.PURE_MEMORY_QUERY
    ∧ (handleChat cfg0 env0 ⟨"u", "do i like coffee", []⟩).2.llmCalls = 1
    ∧ (handleChat cfg0 env0 ⟨"u", "do i like coffee", []⟩).2.ragCalls = 1
    ∧ ¬((handleChat cfg0 env0 ⟨"u", "do i like coffee", []⟩).2.llmCalls = 0
      ∧ (handleChat cfg0 env0 ⟨"u", "do i like coffee", []⟩).2.ragCalls = 0) := by
  decide

/-- C9 (amended): whenever the dispatched intent is PURE_MEMORY_QUERY,
the answer comes purely from the latest facts through the fixed
templates, the only persisted row is the assistant chat row, and the
whole request made exactly one completion call (the pre-dispatch fact
extraction) and one RAG retrieval (the pre-dispatch probe): the
pure-memory handler itself makes no completion call, no RAG retrieval
and no ranked memory retrieval. -/
theorem handleChat_pureMemory_templated (cfg : Config) (env : ChatEnv)
    (req : ChatRequest) :
    (handleChat cfg env req).2.dispatched = some HighLevelIntent.PURE_MEMORY_QUERY →
    (handleChat cfg env req).2.llmCalls = 1
    ∧ (handleChat cfg env req).2.ragCalls = 1
    ∧ (handleChat cfg env req).2.memoryRetrieveCalls = 0
    ∧ (handleChat cfg env req).2.saves
        = [⟨"assistant", (handleChat cfg env req).1.answer, none, MemoryType.chat⟩]
    ∧ ((handleChat cfg env req).1.answer
          = "I don\x27t have any stored memory about that yet."
      ∨ ∃ k, (IDENTITY_KEYS.contains k = true
            ∧ (handleChat cfg env req).1.answer
              = "Your " ++ k ++ " is " ++ String.intercalate (" and ")
                  (((env.latestFacts.filter (fun f => f.memory_key == k)).map
                    (fun f => f.content))) ++ ".")
          ∨ (IDENTITY_KEYS.contains k = false
            ∧ (handleChat cfg env req).1.answer
              = "Your preferences include " ++ String.intercalate (" and ")
                  (((env.latestFacts.filter (fun f => f.memory_key == k)).map
                    (fun f => f.content))) ++ ".")) := by
  simp only [handleChat]
  split
  case isTrue h1 =>
    intro hd
    simp [emptyTrace] at hd
  case isFalse h1 =>
    split
    case isTrue h2 =>
      intro hd
      simp [emptyTrace] at hd
    case isFalse h2 =>
      split
      case h_1 cap hcap =>
        intro hd
        simp at hd
      case h_2 =>
        split
        case h_1 cap hcap =>
          intro hd
          simp at hd
        case h_2 =>
          split
          case isTrue h3 =>
            split
            case isTrue h4 =>
              intro hd
              simp at hd
            case isFalse h4 =>
              intro hd
              simp at hd
          case isFalse h3 =>
            intro hd
            obtain ⟨kf, heq⟩ := chatAfterFastPaths_pureMemory cfg env req.question
              (jsTrim req.question) req.history hd
            rw [heq]
            exact ⟨rfl, rfl, rfl, rfl, pureMemoryAnswer_shape kf env.latestFacts⟩

/-- Witness for C9 at a concrete direct personal question: the request
made exactly one completion call and one RAG retrieval. -/
theorem handleChat_pureMemory_templated_witness :
    (handleChat cfg0 env0 ⟨"u", "do i like coffee", []⟩).2.llmCalls = 1
    ∧ (handleChat cfg0 env0 ⟨"u", "do i like coffee", []⟩).2.ragCalls = 1 := by
  have h := handleChat_pureMemory_templated cfg0 env0 ⟨"u", "do i like coffee", []⟩
    (by decide)
  exact ⟨h.1, h.2.1⟩
